import Mathlib

/-!
# Time-step control and mesh refinement of the phase-field fracture driver

A shallow embedding of `AbstractMultiphysics<dim>::run()`
(`src/include/abstract_multiphysics.h`) and of the hooks that
`PhaseFieldFracture<dim>` overrides (`src/include/phase_field_fracture.h`).

Conventions of the embedding:

* `double` is modelled by `ℚ` (exact arithmetic); `1.0e-9` is `1 / 10 ^ 9`.
* `unsigned int` counters are `ℕ`; the MPI sum of `will_refine` wraps modulo `2 ^ 32`.
* The loops of `run()` are unbounded in the source. Each loop function takes a
  `fuel : ℕ` bounding the number of iterations and returns `Exit.outOfFuel`
  together with the state reached when the bound is hit, so that statements
  about every prefix of an execution need no termination hypothesis.
* The virtual hooks of `AbstractMultiphysics` are the fields of `Hooks`; they
  read the controller and act on the state `σ` of the derived class. They are
  taken not to write `time`, `current_timestep` or `timestep_number`.
* The field solvers (`elasticity.h`, `phase_field.h`, `abstract_field.h`) are
  not among the sources: the outcome of each `update()` is a parameter, and
  `record_old_solution` / `return_old_solution` are `old := current` /
  `current := old`.
* `Run.log` is instrumentation: it records the printed messages of `run()` and
  the program points (entry of `staggered_scheme`, shrinks, outputs) the
  properties below speak about.
-/

namespace Multiphysics

/-- The members of `Controller<dim>` that `run()` reads and writes. -/
structure Controller where
  time : ℚ
  current_timestep : ℚ
  old_timestep : ℚ
  timestep_number : ℕ
deriving DecidableEq

/-- The members of `Parameters::AllParameters` used by the two source files.
`exp_neg_a1` and `exp_neg_a2` stand for `std::exp(-refine_influence_initial)` and
`std::exp(-refine_influence_final)`. -/
structure AllParameters where
  timestep : ℚ
  timestep_size_2 : ℚ
  switch_timestep : ℕ
  max_no_timesteps : ℕ
  upper_newton_rho : ℚ
  enable_phase_field : Bool
  l_phi : ℚ
  refine_minimum_size_ratio : ℚ
  exp_neg_a1 : ℚ
  exp_neg_a2 : ℚ
deriving DecidableEq

/-- Program points and printed messages of `run()`. -/
inductive Event (σ : Type) where
  /-- line 98: `"Time " << timestep_number << ": " << time << " (" << current_timestep << ")"` -/
  | header (timestep_number : ℕ) (time current_timestep : ℚ)
  /-- entry of a call of `staggered_scheme()` (lines 115 and 122) -/
  | attempt (ctl : Controller) (sys : σ)
  /-- line 119: `current_timestep = current_timestep / 10.0` in the residual loop -/
  | residualShrink (before after : ℚ)
  /-- line 125: `"Step size too small - keeping the step size"` -/
  | stepTooSmall
  /-- line 134: `"Solver did not converge! Adjusting time step."` -/
  | solverDidNotConverge
  /-- line 138: `current_timestep = current_timestep / 10.0` in the catch block -/
  | noConvergenceShrink (before after : ℚ)
  /-- line 164: `output_results()` is called with this controller -/
  | output (ctl : Controller)
deriving DecidableEq

/-- The virtual member functions of `AbstractMultiphysics` (lines 27-40).
`staggered_scheme` returns `none` when `SolverControl::NoConvergence` is thrown. -/
structure Hooks (σ : Type) where
  setup_system : Controller → σ → σ
  refine_grid : Controller → σ → σ
  record_old_solution : Controller → σ → σ
  return_old_solution : Controller → σ → σ
  staggered_scheme : Controller → σ → σ × Option ℚ
  respective_output_results : Controller → σ → σ

/-- State of an execution of `run()`: the controller, the state of the derived
class, the local variable `newton_reduction` and the log. -/
structure Run (σ : Type) where
  ctl : Controller
  sys : σ
  newton_reduction : ℚ
  log : List (Event σ)
deriving DecidableEq

/-- How a loop function stops. -/
inductive Exit (α : Type) where
  /-- the loop was left by its condition or by `break` -/
  | normal (state : α)
  /-- `SolverControl::NoConvergence` propagates out of the loop -/
  | noConvergence (state : α)
  /-- `std::runtime_error("Mesh file does not exist")` (line 186) -/
  | meshFileMissing (state : α)
  /-- the iteration bound of the model was reached -/
  | outOfFuel (state : α)
deriving DecidableEq

/-- The state carried by an exit. -/
def Exit.state {α : Type} : Exit α → α
  | .normal s => s
  | .noConvergence s => s
  | .meshFileMissing s => s
  | .outOfFuel s => s

/-- Whether the loop was left normally. -/
def Exit.isNormal {α : Type} : Exit α → Bool
  | .normal _ => true
  | _ => false

variable {σ : Type}

/-- Append an event to the log. -/
def Run.emit (s : Run σ) (e : Event σ) : Run σ :=
  { s with log := s.log ++ [e] }

/-- The literal `1.0e-9` of line 124. -/
def step_floor : ℚ := 1 / 10 ^ 9

/-- A call of the hook `staggered_scheme()`; the result is `none` when it throws. -/
def call_staggered_scheme (H : Hooks σ) (s : Run σ) : Run σ × Option ℚ :=
  let s := s.emit (.attempt s.ctl s.sys)
  let r := H.staggered_scheme s.ctl s.sys
  ({ s with sys := r.1 }, r.2)

/-- Lines 118-121: roll the time back, divide the step by ten, roll the time
forward, restore the old solution. -/
def residual_shrink (H : Hooks σ) (s : Run σ) : Run σ :=
  let before := s.ctl.current_timestep
  let s := { s with ctl := { s.ctl with time := s.ctl.time - s.ctl.current_timestep } }
  let s := { s with ctl := { s.ctl with current_timestep := s.ctl.current_timestep / 10 } }
  let s := { s with ctl := { s.ctl with time := s.ctl.time + s.ctl.current_timestep } }
  let s := s.emit (.residualShrink before s.ctl.current_timestep)
  { s with sys := H.return_old_solution s.ctl s.sys }

/-- Lines 116-129: `while (newton_reduction > upper_newton_rho) { ... }`.
The value returned by the call of line 122 is discarded, as in the source. -/
def residual_loop (H : Hooks σ) (p : AllParameters) : ℕ → Run σ → Exit (Run σ)
  | 0, s => if s.newton_reduction > p.upper_newton_rho then .outOfFuel s else .normal s
  | fuel + 1, s =>
    if s.newton_reduction > p.upper_newton_rho then
      let s := residual_shrink H s
      match call_staggered_scheme H s with
      | (s, none) => .noConvergence s
      | (s, some _) =>
        if s.ctl.current_timestep < step_floor then
          .normal (s.emit .stepTooSmall)
        else
          residual_loop H p fuel s
    else
      .normal s

/-- Lines 133-140: the catch block. -/
def on_no_convergence (H : Hooks σ) (s : Run σ) : Run σ :=
  let s := s.emit .solverDidNotConverge
  let s := { s with ctl := { s.ctl with time := s.ctl.time - s.ctl.current_timestep } }
  let s := { s with sys := H.return_old_solution s.ctl s.sys }
  let before := s.ctl.current_timestep
  let s := { s with ctl := { s.ctl with current_timestep := s.ctl.current_timestep / 10 } }
  let s := { s with ctl := { s.ctl with time := s.ctl.time + s.ctl.current_timestep } }
  s.emit (.noConvergenceShrink before s.ctl.current_timestep)

/-- Lines 107-141: `do { record_old_solution(); try { ... break; } catch ... } while (true)`. -/
def attempt_loop (H : Hooks σ) (p : AllParameters) : ℕ → Run σ → Exit (Run σ)
  | 0, s => .outOfFuel s
  | fuel + 1, s =>
    let s := { s with sys := H.record_old_solution s.ctl s.sys }
    match call_staggered_scheme H s with
    | (s, none) => attempt_loop H p fuel (on_no_convergence H s)
    | (s, some r) =>
      match residual_loop H p fuel { s with newton_reduction := r } with
      | .normal s => .normal s
      | .noConvergence s => attempt_loop H p fuel (on_no_convergence H s)
      | .meshFileMissing s => .meshFileMissing s
      | .outOfFuel s => .outOfFuel s

/-- Lines 86-105: the head of the body of the time loop. The result carries the
local `tmp_current_timestep` as second component. -/
def begin_timestep (p : AllParameters) (s : Run σ) : Run σ × ℚ :=
  let s := { s with newton_reduction := 1 }
  let s :=
    if s.ctl.timestep_number > p.switch_timestep ∧ p.switch_timestep > 0 then
      { s with ctl := { s.ctl with current_timestep := p.timestep_size_2 } }
    else s
  let tmp_current_timestep := s.ctl.current_timestep
  let s := { s with ctl := { s.ctl with old_timestep := s.ctl.current_timestep } }
  let s := s.emit (.header s.ctl.timestep_number s.ctl.time s.ctl.current_timestep)
  let s := { s with ctl := { s.ctl with time := s.ctl.time + s.ctl.current_timestep } }
  (s, tmp_current_timestep)

/-- Lines 210-240: `output_results()`; the statistics record `Step` and `Time`
of the controller it is called with. -/
def output_results (H : Hooks σ) (s : Run σ) : Run σ :=
  let s := s.emit (.output s.ctl)
  { s with sys := H.respective_output_results s.ctl s.sys }

/-- Lines 159-173: the tail of the body of the time loop. -/
def end_timestep (H : Hooks σ) (tmp_current_timestep : ℚ) (s : Run σ) : Run σ :=
  let s := { s with ctl := { s.ctl with current_timestep := tmp_current_timestep } }
  let s := output_results H s
  let s := { s with ctl := { s.ctl with timestep_number := s.ctl.timestep_number + 1 } }
  { s with sys := H.refine_grid s.ctl s.sys }

/-- Lines 86-173: one execution of the body of the time loop. -/
def timestep (H : Hooks σ) (p : AllParameters) (fuel : ℕ) (s : Run σ) : Exit (Run σ) :=
  let b := begin_timestep p s
  match attempt_loop H p fuel b.1 with
  | .normal s => .normal (end_timestep H b.2 s)
  | .noConvergence s => .noConvergence s
  | .meshFileMissing s => .meshFileMissing s
  | .outOfFuel s => .outOfFuel s

/-- Lines 85-174: `do { ... } while (timestep_number <= max_no_timesteps)`. -/
def timestep_loop (H : Hooks σ) (p : AllParameters) (fuel : ℕ) : ℕ → Run σ → Exit (Run σ)
  | 0, s => .outOfFuel s
  | n + 1, s =>
    match timestep H p fuel s with
    | .normal s =>
      if s.ctl.timestep_number ≤ p.max_no_timesteps then timestep_loop H p fuel n s
      else .normal s
    | .noConvergence s => .noConvergence s
    | .meshFileMissing s => .meshFileMissing s
    | .outOfFuel s => .outOfFuel s

/-- Lines 50-177: `run()`. `mesh_file_exists` is the result of `checkFileExsit`
in `setup_mesh()`; `fuel` bounds the attempts of one timestep and `steps` the
number of timesteps. -/
def run (H : Hooks σ) (p : AllParameters) (mesh_file_exists : Bool) (fuel steps : ℕ)
    (s : Run σ) : Exit (Run σ) :=
  if mesh_file_exists then
    let s := { s with sys := H.setup_system s.ctl s.sys }
    let s := { s with ctl := { s.ctl with current_timestep := p.timestep } }
    let s := { s with ctl := { s.ctl with old_timestep := s.ctl.current_timestep } }
    timestep_loop H p fuel steps s
  else
    .meshFileMissing s

/-! ## `PhaseFieldFracture`: the hooks of the derived class -/

/-- The two field solvers owned by `PhaseFieldFracture` (lines 32-33). -/
inductive FieldId where
  | elasticity
  | phasefield
deriving DecidableEq

/-- Calls that `PhaseFieldFracture` makes on its collaborators (the field
solvers, the controller and the triangulation), in the order they are made. -/
inductive Call where
  | setup_system (f : FieldId)
  | record_old_solution (f : FieldId)
  | return_old_solution (f : FieldId)
  | update (f : FieldId)
  | output_results (f : FieldId)
  | prepare_refine (f : FieldId)
  | post_refine (f : FieldId)
  /-- `ctl.finalize_point_history()` -/
  | finalize_point_history
  /-- `phasefield.enforce_phase_field_limitation(ctl)` -/
  | enforce_phase_field_limitation
  /-- line 147: the message `"No cell to refine"` -/
  | no_cell_to_refine
  /-- line 155: `point_history_transfer.prepare_for_coarsening_and_refinement(...)` -/
  | prepare_point_history_transfer
  /-- line 166: `triangulation.execute_coarsening_and_refinement()` -/
  | execute_coarsening_and_refinement
  /-- line 172: `ctl.initialize_point_history()` -/
  | initialize_point_history
  /-- line 173: `point_history_transfer.interpolate()` -/
  | interpolate_point_history
deriving DecidableEq

/-- Modelled from the spec: the state of one field solver (`abstract_field.h`,
`elasticity.h` and `phase_field.h` are not among the sources): the current
solution vector and the old snapshot. -/
structure Field (Sol : Type) where
  solution : Sol
  old_solution : Sol
deriving DecidableEq

/-- Modelled from the spec: `record_old_solution` of a field solver, which is
not among the sources, takes the snapshot `old := current`. -/
def Field.record_old_solution {Sol : Type} (f : Field Sol) : Field Sol :=
  { f with old_solution := f.solution }

/-- Modelled from the spec: `return_old_solution` of a field solver, which is
not among the sources, restores the snapshot `current := old`. -/
def Field.return_old_solution {Sol : Type} (f : Field Sol) : Field Sol :=
  { f with solution := f.old_solution }

/-- What one call of `update()` of a field solver does: the solution vector it
leaves behind and the reduction it returns (`none`: it throws
`SolverControl::NoConvergence`). -/
structure UpdateOutcome (Sol : Type) where
  solution : Sol
  reduction : Option ℚ

/-- An active cell of `phasefield.dof_handler` as `refine_grid` sees it.
`grad_norms` lists `std::sqrt(phasefield_grads[q] * phasefield_grads[q])` over
the quadrature points. -/
structure Cell where
  is_locally_owned : Bool
  diameter : ℚ
  grad_norms : List ℚ
  refine_flag : Bool
deriving DecidableEq

/-- The behaviour of the collaborators that is not determined by the two
source files. `update n` is the outcome of the `n`-th call of `update()` made
on this rank (either field). The field solvers are taken to write only their
current solution vector, never the old snapshot. -/
structure Collaborators (Sol : Type) where
  update : ℕ → UpdateOutcome Sol
  enforce_phase_field_limitation : Sol → Sol
  execute_coarsening_and_refinement : List Cell → List Cell

/-- The state of a `PhaseFieldFracture` object on one rank. -/
structure PhaseFieldFracture (Sol : Type) where
  elasticity : Field Sol
  phasefield : Field Sol
  cells : List Cell
  updates : ℕ
  calls : List Call
deriving DecidableEq

namespace PhaseFieldFracture

variable {Sol : Type}

/-- Record a call on a collaborator. -/
def call (s : PhaseFieldFracture Sol) (c : Call) : PhaseFieldFracture Sol :=
  { s with calls := s.calls ++ [c] }

/-- Lines 42-49. -/
def setup_system (p : AllParameters) (s : PhaseFieldFracture Sol) : PhaseFieldFracture Sol :=
  let s := s.call (.setup_system .elasticity)
  if p.enable_phase_field then s.call (.setup_system .phasefield) else s

/-- Lines 51-56. -/
def record_old_solution (p : AllParameters) (s : PhaseFieldFracture Sol) :
    PhaseFieldFracture Sol :=
  let s := { s with elasticity := s.elasticity.record_old_solution }.call
    (.record_old_solution .elasticity)
  if p.enable_phase_field then
    { s with phasefield := s.phasefield.record_old_solution }.call
      (.record_old_solution .phasefield)
  else s

/-- Lines 58-63. -/
def return_old_solution (p : AllParameters) (s : PhaseFieldFracture Sol) :
    PhaseFieldFracture Sol :=
  let s := { s with elasticity := s.elasticity.return_old_solution }.call
    (.return_old_solution .elasticity)
  if p.enable_phase_field then
    { s with phasefield := s.phasefield.return_old_solution }.call
      (.return_old_solution .phasefield)
  else s

/-- A call `elasticity.update(ctl)` or `phasefield.update(ctl)`. -/
def update (env : Collaborators Sol) (f : FieldId) (s : PhaseFieldFracture Sol) :
    PhaseFieldFracture Sol × Option ℚ :=
  let o := env.update s.updates
  let s := { s with updates := s.updates + 1 }.call (.update f)
  match f with
  | .elasticity => ({ s with elasticity := { s.elasticity with solution := o.solution } }, o.reduction)
  | .phasefield => ({ s with phasefield := { s.phasefield with solution := o.solution } }, o.reduction)

/-- Lines 65-94. The result is `none` when an `update` throws. -/
def staggered_scheme (env : Collaborators Sol) (p : AllParameters) (s : PhaseFieldFracture Sol) :
    PhaseFieldFracture Sol × Option ℚ :=
  if p.enable_phase_field then
    match update env .phasefield s with
    | (s, none) => (s, none)
    | (s, some newton_reduction_phasefield) =>
      let s := s.call .finalize_point_history
      let s := { s with phasefield := { s.phasefield with
        solution := env.enforce_phase_field_limitation s.phasefield.solution } }.call
          .enforce_phase_field_limitation
      match update env .elasticity s with
      | (s, none) => (s, none)
      | (s, some newton_reduction_elasticity) =>
        let s := s.call .finalize_point_history
        (s, some (max newton_reduction_elasticity newton_reduction_phasefield))
  else
    match update env .elasticity s with
    | (s, none) => (s, none)
    | (s, some newton_reduction_elasticity) =>
      let s := s.call .finalize_point_history
      (s, some newton_reduction_elasticity)

/-- Lines 96-105. -/
def respective_output_results (p : AllParameters) (s : PhaseFieldFracture Sol) :
    PhaseFieldFracture Sol :=
  let s := s.call (.output_results .elasticity)
  if p.enable_phase_field then s.call (.output_results .phasefield) else s

/-- Lines 132-136: the maximum over the quadrature points, starting from `0`. -/
def max_grad (grad_norms : List ℚ) : ℚ :=
  grad_norms.foldl (fun max_grad prod => max max_grad prod) 0

/-- Line 137: `1 / l_phi * phi_ref * exp(-a1)` with `phi_ref = exp(-a2) / exp(-a1)` (line 122). -/
def refine_threshold (p : AllParameters) : ℚ :=
  1 / p.l_phi * (p.exp_neg_a2 / p.exp_neg_a1) * p.exp_neg_a1

/-- Lines 123-142: the loop over the active cells; the second component is `will_refine`. -/
def mark_cells (p : AllParameters) : List Cell → ℕ → List Cell × ℕ
  | [], will_refine => ([], will_refine)
  | cell :: rest, will_refine =>
    if cell.is_locally_owned then
      if cell.diameter < p.l_phi * p.refine_minimum_size_ratio then
        let r := mark_cells p rest will_refine
        ({ cell with refine_flag := false } :: r.1, r.2)
      else if max_grad cell.grad_norms > refine_threshold p then
        let r := mark_cells p rest 1
        ({ cell with refine_flag := true } :: r.1, r.2)
      else
        let r := mark_cells p rest will_refine
        (cell :: r.1, r.2)
    else
      let r := mark_cells p rest will_refine
      (cell :: r.1, r.2)

/-- Lines 108-143 of `refine_grid` on one rank: the cells are marked; the
second component is the local `will_refine`. -/
def mark_phase (p : AllParameters) (s : PhaseFieldFracture Sol) : PhaseFieldFracture Sol × ℕ :=
  let r := mark_cells p s.cells 0
  ({ s with cells := r.1 }, r.2)

/-- `Utilities::MPI::sum` over the `unsigned int` contributions of all ranks. -/
def mpi_sum (contributions : List ℕ) : ℕ :=
  contributions.sum % 2 ^ 32

/-- Lines 146-180 of `refine_grid` on one rank, given the value the sum of
line 145 returned. -/
def refine_phase (env : Collaborators Sol) (p : AllParameters) (will_refine_global : ℕ)
    (s : PhaseFieldFracture Sol) : PhaseFieldFracture Sol :=
  if will_refine_global = 0 then
    s.call .no_cell_to_refine
  else
    let s := s.call .prepare_point_history_transfer
    let s := s.call (.prepare_refine .elasticity)
    let s := s.call (.prepare_refine .phasefield)
    let s := { s with cells := env.execute_coarsening_and_refinement s.cells }.call
      .execute_coarsening_and_refinement
    let s := setup_system p s
    let s := s.call .initialize_point_history
    let s := s.call .interpolate_point_history
    let s := s.call (.post_refine .elasticity)
    s.call (.post_refine .phasefield)

/-- The collective `refine_grid()` (lines 107-181) on all ranks of the
communicator: every rank marks its cells, the sum of line 145 gives every
rank the same value, every rank branches on it. -/
def refine_grid_ranks (env : Collaborators Sol) (p : AllParameters)
    (ranks : List (PhaseFieldFracture Sol)) : List (PhaseFieldFracture Sol) :=
  let marked := ranks.map (mark_phase p)
  let will_refine_global := mpi_sum (marked.map Prod.snd)
  marked.map (fun m => refine_phase env p will_refine_global m.1)

/-- The hook `refine_grid()` (lines 107-181) on a communicator of one rank. -/
def refine_grid (env : Collaborators Sol) (p : AllParameters) (s : PhaseFieldFracture Sol) :
    PhaseFieldFracture Sol :=
  let m := mark_phase p s
  refine_phase env p (mpi_sum [m.2]) m.1

/-- The overrides of `PhaseFieldFracture` (lines 25-30) as hooks of `run()`. -/
def hooks (env : Collaborators Sol) (p : AllParameters) : Hooks (PhaseFieldFracture Sol) where
  setup_system := fun _ s => setup_system p s
  refine_grid := fun _ s => refine_grid env p s
  record_old_solution := fun _ s => record_old_solution p s
  return_old_solution := fun _ s => return_old_solution p s
  staggered_scheme := fun _ s => staggered_scheme env p s
  respective_output_results := fun _ s => respective_output_results p s

end PhaseFieldFracture

end Multiphysics

/-! ## Sample inputs and observers of the log -/

namespace Multiphysics
namespace PhaseFieldFracture

/-- Collaborators whose every `update` returns the reduction `0` and leaves the
solution `7`; the mesh execution keeps the cells. -/
def quiet_collaborators : Collaborators ℕ where
  update := fun _ => ⟨7, some 0⟩
  enforce_phase_field_limitation := fun x => x
  execute_coarsening_and_refinement := fun cells => cells

/-- Parameters with refinement threshold `1 / 1 * (1 / 1) * 1 = 1`. -/
def sample_parameters (enable_phase_field : Bool) : AllParameters where
  timestep := 1 / 10
  timestep_size_2 := 1 / 100
  switch_timestep := 0
  max_no_timesteps := 3
  upper_newton_rho := 1
  enable_phase_field := enable_phase_field
  l_phi := 1
  refine_minimum_size_ratio := 1 / 10
  exp_neg_a1 := 1
  exp_neg_a2 := 1

/-- A rank owning one cell whose gradient norm `2` exceeds the threshold `1`. -/
def marking_rank : PhaseFieldFracture ℕ where
  elasticity := ⟨0, 0⟩
  phasefield := ⟨0, 0⟩
  cells := [⟨true, 1, [2], false⟩]
  updates := 0
  calls := []

/-- A rank owning one cell whose gradient norm `0` is below the threshold `1`. -/
def idle_rank : PhaseFieldFracture ℕ where
  elasticity := ⟨0, 0⟩
  phasefield := ⟨0, 0⟩
  cells := [⟨true, 1, [0], false⟩]
  updates := 0
  calls := []

/-- Collaborators whose first `update` throws and whose later ones return the reduction
`0`; the `n`-th `update` leaves the solution `7 + n`. -/
def failing_once : Collaborators ℕ where
  update := fun n => ⟨7 + n, if n = 0 then none else some 0⟩
  enforce_phase_field_limitation := fun x => x
  execute_coarsening_and_refinement := fun cells => cells

/-- Collaborators whose `n`-th `update` returns the reduction `3 - n`. -/
def decreasing_reductions : Collaborators ℕ where
  update := fun n => ⟨7 + n, some (3 - n)⟩
  enforce_phase_field_limitation := fun x => x
  execute_coarsening_and_refinement := fun cells => cells

/-- A run of `PhaseFieldFracture` about to start timestep `1` at time `0` with step `1 / 10`
from the accepted solutions `0` (elasticity) and `0` (phase field), old snapshots `5`. -/
def first_timestep : Run (PhaseFieldFracture ℕ) where
  ctl := ⟨0, 1 / 10, 1 / 10, 1⟩
  sys := { elasticity := ⟨0, 5⟩, phasefield := ⟨0, 5⟩, cells := [], updates := 0, calls := [] }
  newton_reduction := 1
  log := []

end PhaseFieldFracture

/-! ## Observers of the log -/

/-- The events logged between the state `s` and the later state `r`. -/
def events_since (s r : Run σ) : List (Event σ) :=
  r.log.drop s.log.length

/-- Number of shrinks of `current_timestep` (lines 119 and 138) in a list of events. -/
def shrinks : List (Event σ) → ℕ
  | [] => 0
  | .residualShrink _ _ :: l => shrinks l + 1
  | .noConvergenceShrink _ _ :: l => shrinks l + 1
  | _ :: l => shrinks l

/-- Number of executions of the body of the time loop (header lines printed). -/
def headers : List (Event σ) → ℕ
  | [] => 0
  | .header _ _ _ :: l => headers l + 1
  | _ :: l => headers l

/-- The step size that `run()` uses for the timestep numbered `n`: lines 81 and 87-89. -/
def step_in_force (p : AllParameters) (n : ℕ) : ℚ :=
  if n > p.switch_timestep ∧ p.switch_timestep > 0 then p.timestep_size_2 else p.timestep

/-- Hooks driven by a script: the state counts the calls of `staggered_scheme()`, the
`n`-th of which returns `script n` (`none`: it throws). The other hooks do nothing. -/
def scripted (script : ℕ → Option ℚ) : Hooks ℕ where
  setup_system := fun _ n => n
  refine_grid := fun _ n => n
  record_old_solution := fun _ n => n
  return_old_solution := fun _ n => n
  staggered_scheme := fun _ n => (n + 1, script n)
  respective_output_results := fun _ n => n

/-- A run about to start at time `0`, timestep number `n0`, with step `ts`. -/
def start (n0 : ℕ) (ts : ℚ) : Run ℕ where
  ctl := ⟨0, ts, ts, n0⟩
  sys := 0
  newton_reduction := 1
  log := []

/-- The time bookkeeping of the attempt loop of a timestep that began at time `t0` with
step `ts` and log `L`: the events logged since then, the step after `k` shrinks and the
time. -/
def TimeInvariant (t0 ts : ℚ) (L : List (Event σ)) (s : Run σ) : Prop :=
  ∃ new : List (Event σ), s.log = L ++ new ∧
    (∀ c x, Event.attempt c x ∈ new → c.time = t0 + c.current_timestep) ∧
    (∀ b a, (Event.residualShrink b a ∈ new ∨ Event.noConvergenceShrink b a ∈ new) →
      a = b / 10) ∧
    s.ctl.current_timestep = ts / 10 ^ shrinks new ∧
    s.ctl.time = t0 + s.ctl.current_timestep

namespace PhaseFieldFracture
variable {Sol : Type}

/-- The current solution of every enabled field (elasticity always, phase field iff
`enable_phase_field`) is the given one. -/
def solutions_are (p : AllParameters) (elasticity phasefield : Sol)
    (x : PhaseFieldFracture Sol) : Prop :=
  x.elasticity.solution = elasticity ∧
    (p.enable_phase_field = true → x.phasefield.solution = phasefield)

/-- The old snapshot of every enabled field is the given one. -/
def snapshots_are (p : AllParameters) (elasticity phasefield : Sol)
    (x : PhaseFieldFracture Sol) : Prop :=
  x.elasticity.old_solution = elasticity ∧
    (p.enable_phase_field = true → x.phasefield.old_solution = phasefield)

end PhaseFieldFracture

/-- The events that the attempt loop (lines 107-141) logs. -/
def Event.isAttemptEvent : Event σ → Bool
  | .header _ _ _ => false
  | .output _ => false
  | _ => true

/-- What the attempt loop leaves alone: since the log `L` only attempt events were logged,
and the timestep number is still `n`. -/
def AttemptFrame (L : List (Event σ)) (n : ℕ) (r : Run σ) : Prop :=
  ∃ new : List (Event σ), r.log = L ++ new ∧ (∀ e ∈ new, e.isAttemptEvent = true) ∧
    r.ctl.timestep_number = n

/-- The step size with which the body of the time loop is entered: `params.timestep`, or
`timestep_size_2` when an earlier timestep has switched to it. -/
def HeadStep (p : AllParameters) (r : Run σ) : Prop :=
  r.ctl.current_timestep = p.timestep ∨
    (r.ctl.current_timestep = p.timestep_size_2 ∧ p.switch_timestep > 0 ∧
      r.ctl.timestep_number > p.switch_timestep)

/-- The shrinks in a list of events, each as the pair (step before, step after). -/
def shrink_steps : List (Event σ) → List (ℚ × ℚ)
  | [] => []
  | .residualShrink b a :: l => (b, a) :: shrink_steps l
  | .noConvergenceShrink b a :: l => (b, a) :: shrink_steps l
  | _ :: l => shrink_steps l

/-- The floor check in a list of events of the attempt loop that ended normally iff
`normal`: wherever a residual shrink to a step below `1.0e-9` is followed by an attempt
that returns, the warning is the only event after it and the loop ended normally. -/
def FloorChecked (H : Hooks σ) (events : List (Event σ)) (normal : Bool) : Prop :=
  ∀ pre b a c x post,
    events = pre ++ Event.residualShrink b a :: Event.attempt c x :: post →
    a < step_floor → (H.staggered_scheme c x).2 ≠ none →
    post = [Event.stepTooSmall] ∧ normal = true

/-- A run at the head of the attempt loop of timestep `1`, which began at time `0` with
step `ts`. -/
def loop_head (ts : ℚ) : Run ℕ where
  ctl := ⟨ts, ts, ts, 1⟩
  sys := 0
  newton_reduction := 1
  log := []

end Multiphysics

/-! ## Theorems -/

namespace Multiphysics
namespace PhaseFieldFracture
variable {Sol : Type}

/-- The calls made by the refinement branch (lines 149-179). -/
theorem refine_phase_calls (env : Collaborators Sol) (p : AllParameters) (k : ℕ)
    (s : PhaseFieldFracture Sol) :
    (refine_phase env p (k + 1) s).calls = s.calls ++
      ([.prepare_point_history_transfer, .prepare_refine .elasticity,
        .prepare_refine .phasefield, .execute_coarsening_and_refinement,
        .setup_system .elasticity] ++
       (if p.enable_phase_field then [.setup_system .phasefield] else []) ++
       [.initialize_point_history, .interpolate_point_history,
        .post_refine .elasticity, .post_refine .phasefield]) := by
  cases h : p.enable_phase_field <;> simp [refine_phase, setup_system, call, h]

/-- Marking the cells makes no call on a collaborator. -/
theorem mark_phase_calls (p : AllParameters) (s : PhaseFieldFracture Sol) :
    (mark_phase p s).1.calls = s.calls := rfl

/-- Dropping the zero contributions does not change the sum. -/
theorem sum_filter_ne_zero (l : List ℕ) : (l.filter (fun w => w ≠ 0)).sum = l.sum := by
  induction l with
  | nil => rfl
  | cons a l ih =>
    have ih2 : (l.filter (fun w => !decide (w = 0))).sum = l.sum := by simpa using ih
    by_cases h : a = 0
    · simp [h, ih2]
    · simp [h, ih2]

/-- Claim C8 as stated is refuted: of two ranks exactly one marks a cell (local flags
`1` and `0`); the sum of line 145 is `1` and both ranks run the refinement branch (transfer
preparation, mesh execution, `setup_system`, finalisation) instead of printing
`"No cell to refine"`. -/
theorem refine_grid_single_flag_counterexample :
    [marking_rank, idle_rank].map (fun s => (mark_phase (sample_parameters true) s).2) = [1, 0] ∧
    (refine_grid_ranks quiet_collaborators (sample_parameters true)
        [marking_rank, idle_rank]).map (fun s => s.calls) =
      [[.prepare_point_history_transfer, .prepare_refine .elasticity,
        .prepare_refine .phasefield, .execute_coarsening_and_refinement,
        .setup_system .elasticity, .setup_system .phasefield,
        .initialize_point_history, .interpolate_point_history,
        .post_refine .elasticity, .post_refine .phasefield],
       [.prepare_point_history_transfer, .prepare_refine .elasticity,
        .prepare_refine .phasefield, .execute_coarsening_and_refinement,
        .setup_system .elasticity, .setup_system .phasefield,
        .initialize_point_history, .interpolate_point_history,
        .post_refine .elasticity, .post_refine .phasefield]] := by
  decide!

/-- Claim C8, amended: when exactly one rank has its local `will_refine` set, the sum of line 145
is `1` on every rank and every rank runs the refinement branch: its calls are extended by
the transfer preparation, the mesh execution, `setup_system` and the finalisation, and
`"No cell to refine"` is printed on no rank. -/
theorem refine_grid_single_flag_refines (env : Collaborators Sol) (p : AllParameters)
    (ranks : List (PhaseFieldFracture Sol))
    (h : (ranks.map (fun s => (mark_phase p s).2)).filter (fun w => w ≠ 0) = [1]) :
    mpi_sum (ranks.map (fun s => (mark_phase p s).2)) = 1 ∧
    (refine_grid_ranks env p ranks).map (fun s => s.calls) =
      ranks.map (fun s => s.calls ++
        ([.prepare_point_history_transfer, .prepare_refine .elasticity,
          .prepare_refine .phasefield, .execute_coarsening_and_refinement,
          .setup_system .elasticity] ++
         (if p.enable_phase_field then [.setup_system .phasefield] else []) ++
         [.initialize_point_history, .interpolate_point_history,
          .post_refine .elasticity, .post_refine .phasefield])) := by
  have hsum : mpi_sum (ranks.map (fun s => (mark_phase p s).2)) = 1 := by
    unfold mpi_sum
    rw [← sum_filter_ne_zero, h]
    rfl
  refine ⟨hsum, ?_⟩
  unfold refine_grid_ranks
  simp only [List.map_map]
  have hcomp : (Prod.snd ∘ mark_phase p : PhaseFieldFracture Sol → ℕ)
      = fun s => (mark_phase p s).2 := rfl
  rw [hcomp, hsum]
  apply List.map_congr_left
  intro s _
  simp only [Function.comp]
  rw [refine_phase_calls env p 0, mark_phase_calls]

/-- Witness of `refine_grid_single_flag_refines`: two ranks, one of which marks a cell. -/
theorem refine_grid_single_flag_refines_witness :
    mpi_sum ([marking_rank, idle_rank].map
      (fun s => (mark_phase (sample_parameters true) s).2)) = 1 ∧
    (refine_grid_ranks quiet_collaborators (sample_parameters true)
        [marking_rank, idle_rank]).map (fun s => s.calls) =
      [marking_rank, idle_rank].map (fun s => s.calls ++
        ([.prepare_point_history_transfer, .prepare_refine .elasticity,
          .prepare_refine .phasefield, .execute_coarsening_and_refinement,
          .setup_system .elasticity] ++
         (if (sample_parameters true).enable_phase_field then [.setup_system .phasefield]
          else []) ++
         [.initialize_point_history, .interpolate_point_history,
          .post_refine .elasticity, .post_refine .phasefield])) :=
  refine_grid_single_flag_refines quiet_collaborators (sample_parameters true)
    [marking_rank, idle_rank] (by decide!)

/-- Claim C9, the code at the failing input: with `enable_phase_field = false` a rank that
marks a cell prepares and finalises the phase-field solution transfer, but `setup_system`
rebuilds the degree-of-freedom layout of elasticity only: no `setup_system` of the phase
field stands between the mesh execution and `phasefield.post_refine`. -/
theorem refine_grid_disabled_phase_field_calls :
    (refine_grid quiet_collaborators (sample_parameters false) marking_rank).calls =
      [.prepare_point_history_transfer, .prepare_refine .elasticity,
       .prepare_refine .phasefield, .execute_coarsening_and_refinement,
       .setup_system .elasticity,
       .initialize_point_history, .interpolate_point_history,
       .post_refine .elasticity, .post_refine .phasefield] := by
  decide!

/-- Claim C10: `staggered_scheme` is a single pass. With `enable_phase_field`, when both
updates return, it calls `phasefield.update` once, finalises the point history (and enforces
the phase-field limitation), calls `elasticity.update` once, finalises the point history,
and returns the maximum of the two reductions, which is at least each of them and equal to
one of them. Without `enable_phase_field` it calls only `elasticity.update`, once, finalises
the point history and returns that reduction unchanged; the phase field is left alone. -/
theorem staggered_scheme_single_pass (env : Collaborators Sol) (p : AllParameters)
    (s : PhaseFieldFracture Sol) :
    (p.enable_phase_field = true → ∀ rp re : ℚ,
      (env.update s.updates).reduction = some rp →
      (env.update (s.updates + 1)).reduction = some re →
        (staggered_scheme env p s).2 = some (max re rp) ∧
        (staggered_scheme env p s).1.calls = s.calls ++
          [.update .phasefield, .finalize_point_history, .enforce_phase_field_limitation,
           .update .elasticity, .finalize_point_history] ∧
        (staggered_scheme env p s).1.updates = s.updates + 2 ∧
        re ≤ max re rp ∧ rp ≤ max re rp ∧ (max re rp = re ∨ max re rp = rp)) ∧
    (p.enable_phase_field = false → ∀ re : ℚ,
      (env.update s.updates).reduction = some re →
        (staggered_scheme env p s).2 = some re ∧
        (staggered_scheme env p s).1.calls = s.calls ++
          [.update .elasticity, .finalize_point_history] ∧
        (staggered_scheme env p s).1.updates = s.updates + 1 ∧
        (staggered_scheme env p s).1.phasefield = s.phasefield) := by
  refine ⟨fun hp rp re h1 h2 => ?_, fun hp re h1 => ?_⟩
  · simp [staggered_scheme, hp, update, call, h1, h2, le_max_left, le_max_right]
    exact le_total rp re
  · simp [staggered_scheme, hp, update, call, h1]

end PhaseFieldFracture

/-! ## Unfolding equations of the loops -/

theorem residual_loop_done (H : Hooks σ) (p : AllParameters) (fuel : ℕ) (s : Run σ)
    (h : ¬ s.newton_reduction > p.upper_newton_rho) :
    residual_loop H p fuel s = .normal s := by
  cases fuel <;> simp [residual_loop, h]

theorem residual_loop_raise (H : Hooks σ) (p : AllParameters) (fuel : ℕ) (s s1 : Run σ)
    (h : s.newton_reduction > p.upper_newton_rho)
    (hc : call_staggered_scheme H (residual_shrink H s) = (s1, none)) :
    residual_loop H p (fuel + 1) s = .noConvergence s1 := by
  simp [residual_loop, h, hc]

theorem residual_loop_floor (H : Hooks σ) (p : AllParameters) (fuel : ℕ) (s s1 : Run σ) (r : ℚ)
    (h : s.newton_reduction > p.upper_newton_rho)
    (hc : call_staggered_scheme H (residual_shrink H s) = (s1, some r))
    (hf : s1.ctl.current_timestep < step_floor) :
    residual_loop H p (fuel + 1) s = .normal (s1.emit .stepTooSmall) := by
  simp [residual_loop, h, hc, hf]

theorem residual_loop_again (H : Hooks σ) (p : AllParameters) (fuel : ℕ) (s s1 : Run σ) (r : ℚ)
    (h : s.newton_reduction > p.upper_newton_rho)
    (hc : call_staggered_scheme H (residual_shrink H s) = (s1, some r))
    (hf : ¬ s1.ctl.current_timestep < step_floor) :
    residual_loop H p (fuel + 1) s = residual_loop H p fuel s1 := by
  simp [residual_loop, h, hc, hf]

theorem attempt_loop_raise (H : Hooks σ) (p : AllParameters) (fuel : ℕ) (s s1 : Run σ)
    (hc : call_staggered_scheme H { s with sys := H.record_old_solution s.ctl s.sys }
      = (s1, none)) :
    attempt_loop H p (fuel + 1) s = attempt_loop H p fuel (on_no_convergence H s1) := by
  simp [attempt_loop, hc]

theorem attempt_loop_return (H : Hooks σ) (p : AllParameters) (fuel : ℕ) (s s1 : Run σ) (r : ℚ)
    (hc : call_staggered_scheme H { s with sys := H.record_old_solution s.ctl s.sys }
      = (s1, some r)) :
    attempt_loop H p (fuel + 1) s =
      match residual_loop H p fuel { s1 with newton_reduction := r } with
      | .normal s => .normal s
      | .noConvergence s => attempt_loop H p fuel (on_no_convergence H s)
      | .meshFileMissing s => .meshFileMissing s
      | .outOfFuel s => .outOfFuel s := by
  simp [attempt_loop, hc]

/-! ## Invariant rules -/

/-- Invariant rule for the residual loop: a predicate that `call_staggered_scheme` carries
from `Ready` to `After`, the shrink from `After` to `Ready`, and that the warning
preserves, holds at every exit. -/
theorem residual_loop_invariant (H : Hooks σ) (p : AllParameters) (Ready After : Run σ → Prop)
    (h_call : ∀ s, Ready s → After (call_staggered_scheme H s).1)
    (h_shrink : ∀ s, After s → Ready (residual_shrink H s))
    (h_warn : ∀ s, After s → After (s.emit .stepTooSmall)) :
    ∀ (fuel : ℕ) (s : Run σ), After s → After (residual_loop H p fuel s).state := by
  intro fuel
  induction fuel with
  | zero =>
    intro s hs
    unfold residual_loop
    split <;> exact hs
  | succ n ih =>
    intro s hs
    by_cases hgt : s.newton_reduction > p.upper_newton_rho
    · have h1 := h_call _ (h_shrink s hs)
      rcases hc : call_staggered_scheme H (residual_shrink H s) with ⟨s1, _ | r⟩
      · rw [hc] at h1
        rw [residual_loop_raise H p n s s1 hgt hc]
        exact h1
      · rw [hc] at h1
        by_cases hf : s1.ctl.current_timestep < step_floor
        · rw [residual_loop_floor H p n s s1 r hgt hc hf]
          exact h_warn _ h1
        · rw [residual_loop_again H p n s s1 r hgt hc hf]
          exact ih _ h1
    · rw [residual_loop_done H p _ s hgt]
      exact hs

/-- Invariant rule for the attempt loop: `Head` holds before `record_old_solution()`,
`Ready` before every call of `staggered_scheme()`, `After` once it has returned or
thrown. -/
theorem attempt_loop_invariant (H : Hooks σ) (p : AllParameters)
    (Head Ready After : Run σ → Prop)
    (h_record : ∀ s, Head s → Ready { s with sys := H.record_old_solution s.ctl s.sys })
    (h_call : ∀ s, Ready s → After (call_staggered_scheme H s).1)
    (h_reduction : ∀ s r, After s → After { s with newton_reduction := r })
    (h_shrink : ∀ s, After s → Ready (residual_shrink H s))
    (h_warn : ∀ s, After s → After (s.emit .stepTooSmall))
    (h_catch : ∀ s, After s → Head (on_no_convergence H s)) :
    ∀ (fuel : ℕ) (s : Run σ), Head s →
      (Head (attempt_loop H p fuel s).state ∨ After (attempt_loop H p fuel s).state) ∧
      ((attempt_loop H p fuel s).isNormal = true → After (attempt_loop H p fuel s).state) := by
  intro fuel
  induction fuel with
  | zero =>
    intro s hs
    unfold attempt_loop
    exact ⟨Or.inl hs, fun h => by simp [Exit.isNormal] at h⟩
  | succ n ih =>
    intro s hs
    have h1 := h_call _ (h_record s hs)
    rcases hc : call_staggered_scheme H { s with sys := H.record_old_solution s.ctl s.sys }
      with ⟨s1, _ | r⟩
    · rw [hc] at h1
      rw [attempt_loop_raise H p n s s1 hc]
      exact ih _ (h_catch _ h1)
    · rw [hc] at h1
      have h2 := residual_loop_invariant H p Ready After h_call h_shrink h_warn n _
        (h_reduction s1 r h1)
      rw [attempt_loop_return H p n s s1 r hc]
      rcases hr : residual_loop H p n { s1 with newton_reduction := r } with s2 | s2 | s2 | s2
      · rw [hr] at h2
        exact ⟨Or.inr h2, fun _ => h2⟩
      · rw [hr] at h2
        exact ih _ (h_catch _ h2)
      · rw [hr] at h2
        exact ⟨Or.inr h2, fun _ => h2⟩
      · rw [hr] at h2
        exact ⟨Or.inr h2, fun _ => h2⟩

/-! ## Basic facts about the log and the primitive steps -/

theorem events_since_append (s r : Run σ) (new : List (Event σ)) (h : r.log = s.log ++ new) :
    events_since s r = new := by
  simp [events_since, h]

theorem shrinks_append (a b : List (Event σ)) : shrinks (a ++ b) = shrinks a + shrinks b := by
  induction a with
  | nil => simp [shrinks]
  | cons e a ih => cases e <;> simp [shrinks, ih]; all_goals omega

theorem headers_append (a b : List (Event σ)) : headers (a ++ b) = headers a + headers b := by
  induction a with
  | nil => simp [headers]
  | cons e a ih => cases e <;> simp [headers, ih]; omega

theorem call_staggered_scheme_ctl (H : Hooks σ) (s : Run σ) :
    (call_staggered_scheme H s).1.ctl = s.ctl := rfl

theorem call_staggered_scheme_log (H : Hooks σ) (s : Run σ) :
    (call_staggered_scheme H s).1.log = s.log ++ [.attempt s.ctl s.sys] := rfl

theorem call_staggered_scheme_sys (H : Hooks σ) (s : Run σ) :
    (call_staggered_scheme H s).1.sys = (H.staggered_scheme s.ctl s.sys).1 := rfl

theorem call_staggered_scheme_result (H : Hooks σ) (s : Run σ) :
    (call_staggered_scheme H s).2 = (H.staggered_scheme s.ctl s.sys).2 := rfl

theorem call_staggered_scheme_reduction (H : Hooks σ) (s : Run σ) :
    (call_staggered_scheme H s).1.newton_reduction = s.newton_reduction := rfl

theorem residual_shrink_log (H : Hooks σ) (s : Run σ) :
    (residual_shrink H s).log =
      s.log ++ [.residualShrink s.ctl.current_timestep (s.ctl.current_timestep / 10)] := rfl

theorem residual_shrink_step (H : Hooks σ) (s : Run σ) :
    (residual_shrink H s).ctl.current_timestep = s.ctl.current_timestep / 10 := rfl

theorem residual_shrink_time (H : Hooks σ) (s : Run σ) :
    (residual_shrink H s).ctl.time =
      s.ctl.time - s.ctl.current_timestep + s.ctl.current_timestep / 10 := rfl

theorem residual_shrink_reduction (H : Hooks σ) (s : Run σ) :
    (residual_shrink H s).newton_reduction = s.newton_reduction := rfl

theorem on_no_convergence_log (H : Hooks σ) (s : Run σ) :
    (on_no_convergence H s).log =
      s.log ++ [.solverDidNotConverge,
        .noConvergenceShrink s.ctl.current_timestep (s.ctl.current_timestep / 10)] := by
  simp [on_no_convergence, Run.emit]

theorem on_no_convergence_step (H : Hooks σ) (s : Run σ) :
    (on_no_convergence H s).ctl.current_timestep = s.ctl.current_timestep / 10 := rfl

theorem on_no_convergence_time (H : Hooks σ) (s : Run σ) :
    (on_no_convergence H s).ctl.time =
      s.ctl.time - s.ctl.current_timestep + s.ctl.current_timestep / 10 := rfl

/-! ## Time bookkeeping of one timestep -/

theorem time_invariant_attempt_loop (H : Hooks σ) (p : AllParameters) (t0 ts : ℚ)
    (L : List (Event σ)) (fuel : ℕ) (s : Run σ) (hs : TimeInvariant t0 ts L s) :
    TimeInvariant t0 ts L (attempt_loop H p fuel s).state := by
  have key := attempt_loop_invariant H p (TimeInvariant t0 ts L) (TimeInvariant t0 ts L)
    (TimeInvariant t0 ts L) ?_ ?_ ?_ ?_ ?_ ?_ fuel s hs
  · exact key.1.elim id id
  · intro s h
    exact h
  · rintro s ⟨new, hl, ha, hb, hc, hd⟩
    refine ⟨new ++ [.attempt s.ctl s.sys], ?_, ?_, ?_, ?_, ?_⟩
    · rw [call_staggered_scheme_log, hl, List.append_assoc]
    · intro c x hmem
      rcases List.mem_append.1 hmem with h | h
      · exact ha c x h
      · simp at h
        rw [h.1]
        exact hd
    · intro b a hmem
      apply hb b a
      rcases hmem with h | h
      · rcases List.mem_append.1 h with h | h
        · exact Or.inl h
        · simp at h
      · rcases List.mem_append.1 h with h | h
        · exact Or.inr h
        · simp at h
    · rw [call_staggered_scheme_ctl, shrinks_append, hc]
      simp [shrinks]
    · rw [call_staggered_scheme_ctl]
      exact hd
  · rintro s r ⟨new, hl, ha, hb, hc, hd⟩
    exact ⟨new, hl, ha, hb, hc, hd⟩
  · rintro s ⟨new, hl, ha, hb, hc, hd⟩
    refine ⟨new ++ [.residualShrink s.ctl.current_timestep (s.ctl.current_timestep / 10)],
      ?_, ?_, ?_, ?_, ?_⟩
    · rw [residual_shrink_log, hl, List.append_assoc]
    · intro c x hmem
      rcases List.mem_append.1 hmem with h | h
      · exact ha c x h
      · simp at h
    · intro b a hmem
      rcases hmem with h | h
      · rcases List.mem_append.1 h with h | h
        · exact hb b a (Or.inl h)
        · simp at h
          rw [h.1, h.2]
      · rcases List.mem_append.1 h with h | h
        · exact hb b a (Or.inr h)
        · simp at h
    · rw [residual_shrink_step, shrinks_append, hc]
      simp [shrinks, pow_succ, div_div]
    · rw [residual_shrink_time, residual_shrink_step, hd]
      ring
  · rintro s ⟨new, hl, ha, hb, hc, hd⟩
    refine ⟨new ++ [.stepTooSmall], ?_, ?_, ?_, ?_, ?_⟩
    · simp [Run.emit, hl]
    · intro c x hmem
      rcases List.mem_append.1 hmem with h | h
      · exact ha c x h
      · simp at h
    · intro b a hmem
      apply hb b a
      rcases hmem with h | h
      · rcases List.mem_append.1 h with h | h
        · exact Or.inl h
        · simp at h
      · rcases List.mem_append.1 h with h | h
        · exact Or.inr h
        · simp at h
    · rw [shrinks_append]
      simpa [shrinks, Run.emit] using hc
    · exact hd
  · rintro s ⟨new, hl, ha, hb, hc, hd⟩
    refine ⟨new ++ [.solverDidNotConverge,
      .noConvergenceShrink s.ctl.current_timestep (s.ctl.current_timestep / 10)],
      ?_, ?_, ?_, ?_, ?_⟩
    · rw [on_no_convergence_log, hl, List.append_assoc]
    · intro c x hmem
      rcases List.mem_append.1 hmem with h | h
      · exact ha c x h
      · simp at h
    · intro b a hmem
      rcases hmem with h | h
      · rcases List.mem_append.1 h with h | h
        · exact hb b a (Or.inl h)
        · simp at h
      · rcases List.mem_append.1 h with h | h
        · exact hb b a (Or.inr h)
        · simp at h
          rw [h.1, h.2]
    · rw [on_no_convergence_step, shrinks_append, hc]
      simp [shrinks, pow_succ, div_div]
    · rw [on_no_convergence_time, on_no_convergence_step, hd]
      ring

theorem begin_timestep_log (p : AllParameters) (s : Run σ) :
    (begin_timestep p s).1.log =
      s.log ++ [.header s.ctl.timestep_number s.ctl.time (begin_timestep p s).2] := by
  by_cases h : s.ctl.timestep_number > p.switch_timestep ∧ p.switch_timestep > 0 <;>
    simp [begin_timestep, h, Run.emit]

theorem begin_timestep_step (p : AllParameters) (s : Run σ) :
    (begin_timestep p s).1.ctl.current_timestep = (begin_timestep p s).2 := by
  by_cases h : s.ctl.timestep_number > p.switch_timestep ∧ p.switch_timestep > 0 <;>
    simp [begin_timestep, h, Run.emit]

theorem begin_timestep_time (p : AllParameters) (s : Run σ) :
    (begin_timestep p s).1.ctl.time = s.ctl.time + (begin_timestep p s).2 := by
  by_cases h : s.ctl.timestep_number > p.switch_timestep ∧ p.switch_timestep > 0 <;>
    simp [begin_timestep, h, Run.emit]

theorem begin_timestep_number (p : AllParameters) (s : Run σ) :
    (begin_timestep p s).1.ctl.timestep_number = s.ctl.timestep_number := by
  by_cases h : s.ctl.timestep_number > p.switch_timestep ∧ p.switch_timestep > 0 <;>
    simp [begin_timestep, h, Run.emit]

theorem begin_timestep_sys (p : AllParameters) (s : Run σ) :
    (begin_timestep p s).1.sys = s.sys := by
  by_cases h : s.ctl.timestep_number > p.switch_timestep ∧ p.switch_timestep > 0 <;>
    simp [begin_timestep, h, Run.emit]

theorem begin_timestep_value (p : AllParameters) (s : Run σ) :
    (begin_timestep p s).2 =
      if s.ctl.timestep_number > p.switch_timestep ∧ p.switch_timestep > 0 then
        p.timestep_size_2
      else s.ctl.current_timestep := by
  by_cases h : s.ctl.timestep_number > p.switch_timestep ∧ p.switch_timestep > 0 <;>
    simp [begin_timestep, h, Run.emit]

theorem end_timestep_log (H : Hooks σ) (tmp : ℚ) (s : Run σ) :
    (end_timestep H tmp s).log =
      s.log ++ [.output { s.ctl with current_timestep := tmp }] := rfl

theorem end_timestep_ctl (H : Hooks σ) (tmp : ℚ) (s : Run σ) :
    (end_timestep H tmp s).ctl =
      { s.ctl with current_timestep := tmp, timestep_number := s.ctl.timestep_number + 1 } :=
  rfl

/-- The two ways a timestep ends: the attempt loop accepted and the tail of the body ran,
or the attempt loop stopped otherwise and its state is returned. -/
theorem timestep_cases (H : Hooks σ) (p : AllParameters) (fuel : ℕ) (s : Run σ) :
    (∃ s1, attempt_loop H p fuel (begin_timestep p s).1 = .normal s1 ∧
      timestep H p fuel s = .normal (end_timestep H (begin_timestep p s).2 s1)) ∨
    ((attempt_loop H p fuel (begin_timestep p s).1).isNormal = false ∧
      (timestep H p fuel s).isNormal = false ∧
      (timestep H p fuel s).state = (attempt_loop H p fuel (begin_timestep p s).1).state) := by
  rcases h : attempt_loop H p fuel (begin_timestep p s).1 with s1 | s1 | s1 | s1
  · exact Or.inl ⟨s1, rfl, by simp [timestep, h]⟩
  · exact Or.inr ⟨rfl, by simp [timestep, h, Exit.isNormal], by simp [timestep, h, Exit.state]⟩
  · exact Or.inr ⟨rfl, by simp [timestep, h, Exit.isNormal], by simp [timestep, h, Exit.state]⟩
  · exact Or.inr ⟨rfl, by simp [timestep, h, Exit.isNormal], by simp [timestep, h, Exit.state]⟩

theorem time_invariant_timestep (H : Hooks σ) (p : AllParameters) (fuel : ℕ) (s : Run σ) :
    ∃ new : List (Event σ), (timestep H p fuel s).state.log = s.log ++ new ∧
      (∀ c x, Event.attempt c x ∈ new → c.time = s.ctl.time + c.current_timestep) ∧
      (∀ b a, (Event.residualShrink b a ∈ new ∨ Event.noConvergenceShrink b a ∈ new) →
        a = b / 10) ∧
      (timestep H p fuel s).state.ctl.time =
        s.ctl.time + (begin_timestep p s).2 / 10 ^ shrinks new := by
  have h0 : TimeInvariant s.ctl.time (begin_timestep p s).2
      (s.log ++ [.header s.ctl.timestep_number s.ctl.time (begin_timestep p s).2])
      (begin_timestep p s).1 :=
    ⟨[], by simp [begin_timestep_log], by simp, by simp,
      by simp [shrinks, begin_timestep_step],
      by rw [begin_timestep_time, begin_timestep_step]⟩
  obtain ⟨new, hl, ha, hb, hc, hd⟩ := time_invariant_attempt_loop H p _ _ _ fuel _ h0
  rcases timestep_cases H p fuel s with ⟨s1, h1, h2⟩ | ⟨_, _, h3⟩
  · rw [h1] at hl hc hd
    simp only [Exit.state] at hl hc hd
    refine ⟨.header s.ctl.timestep_number s.ctl.time (begin_timestep p s).2 :: new ++
      [.output { s1.ctl with current_timestep := (begin_timestep p s).2 }], ?_, ?_, ?_, ?_⟩
    · rw [h2]
      simp [Exit.state, end_timestep_log, hl]
    · intro c x hmem
      simp at hmem
      exact ha c x hmem
    · intro b a hmem
      simp at hmem
      exact hb b a hmem
    · rw [h2]
      simp only [Exit.state, end_timestep_ctl]
      rw [hd, hc]
      simp [shrinks, shrinks_append]
  · rw [h3]
    refine ⟨.header s.ctl.timestep_number s.ctl.time (begin_timestep p s).2 :: new,
      ?_, ?_, ?_, ?_⟩
    · simp [hl]
    · intro c x hmem
      simp at hmem
      exact ha c x hmem
    · intro b a hmem
      simp at hmem
      exact hb b a hmem
    · rw [hd, hc]
      simp [shrinks]

/-- Claim C3: over exact arithmetic, in a timestep of `run()` that starts at time `t0` with
step `ts` (the value of `tmp_current_timestep`), whatever the hooks do and however far the
execution has got: every attempt starts with `time = t0 + current_timestep`, every shrink of
either kind divides `current_timestep` by exactly `10`, and after `k` shrinks
`time = t0 + ts / 10 ^ k`; so when `ts` is positive the time of the step is strictly later
than the time `t0` accepted by the previous step. -/
theorem timestep_time_bookkeeping (H : Hooks σ) (p : AllParameters) (fuel : ℕ) (s : Run σ) :
    (∀ c x, Event.attempt c x ∈ events_since s (timestep H p fuel s).state →
      c.time = s.ctl.time + c.current_timestep) ∧
    (∀ b a, (Event.residualShrink b a ∈ events_since s (timestep H p fuel s).state ∨
        Event.noConvergenceShrink b a ∈ events_since s (timestep H p fuel s).state) →
      a = b / 10) ∧
    (timestep H p fuel s).state.ctl.time =
      s.ctl.time +
        (begin_timestep p s).2 / 10 ^ shrinks (events_since s (timestep H p fuel s).state) ∧
    (0 < (begin_timestep p s).2 → s.ctl.time < (timestep H p fuel s).state.ctl.time) := by
  obtain ⟨new, hl, ha, hb, ht⟩ := time_invariant_timestep H p fuel s
  rw [events_since_append s _ new hl]
  refine ⟨ha, hb, ht, fun hpos => ?_⟩
  rw [ht]
  have : 0 < (begin_timestep p s).2 / 10 ^ shrinks new := by positivity
  linarith

namespace PhaseFieldFracture
variable {Sol : Type}

/-! ## Snapshots and roll-back of the field solutions -/

theorem staggered_scheme_old_solution (env : Collaborators Sol) (p : AllParameters)
    (x : PhaseFieldFracture Sol) :
    (staggered_scheme env p x).1.elasticity.old_solution = x.elasticity.old_solution ∧
    (staggered_scheme env p x).1.phasefield.old_solution = x.phasefield.old_solution := by
  cases hp : p.enable_phase_field <;> cases h1 : (env.update x.updates).reduction <;>
    cases h2 : (env.update (x.updates + 1)).reduction <;>
    simp [staggered_scheme, update, call, hp, h1, h2]

theorem record_old_solution_spec (p : AllParameters) (x : PhaseFieldFracture Sol) (e f : Sol)
    (h : solutions_are p e f x) :
    solutions_are p e f (record_old_solution p x) ∧
    snapshots_are p e f (record_old_solution p x) := by
  obtain ⟨h1, h2⟩ := h
  cases hp : p.enable_phase_field
  · simp [record_old_solution, solutions_are, snapshots_are, hp, call,
      Field.record_old_solution, h1]
  · simp [record_old_solution, solutions_are, snapshots_are, hp, call,
      Field.record_old_solution, h1, h2 hp]

theorem return_old_solution_spec (p : AllParameters) (x : PhaseFieldFracture Sol) (e f : Sol)
    (h : snapshots_are p e f x) :
    solutions_are p e f (return_old_solution p x) ∧
    snapshots_are p e f (return_old_solution p x) := by
  obtain ⟨h1, h2⟩ := h
  cases hp : p.enable_phase_field
  · simp [return_old_solution, solutions_are, snapshots_are, hp, call,
      Field.return_old_solution, h1]
  · simp [return_old_solution, solutions_are, snapshots_are, hp, call,
      Field.return_old_solution, h1, h2 hp]

theorem staggered_scheme_snapshots (env : Collaborators Sol) (p : AllParameters)
    (x : PhaseFieldFracture Sol) (e f : Sol) (h : snapshots_are p e f x) :
    snapshots_are p e f (staggered_scheme env p x).1 := by
  obtain ⟨h1, h2⟩ := h
  obtain ⟨k1, k2⟩ := staggered_scheme_old_solution env p x
  exact ⟨k1.trans h1, fun hp => k2.trans (h2 hp)⟩

theorem accepted_state_attempt_loop (env : Collaborators Sol) (p : AllParameters) (e f : Sol)
    (fuel : ℕ) (s : Run (PhaseFieldFracture Sol)) (hs : solutions_are p e f s.sys) :
    ∃ new : List (Event (PhaseFieldFracture Sol)),
      (attempt_loop (hooks env p) p fuel s).state.log = s.log ++ new ∧
      (∀ c x, Event.attempt c x ∈ new → solutions_are p e f x ∧ snapshots_are p e f x) ∧
      ((attempt_loop (hooks env p) p fuel s).isNormal = true →
        snapshots_are p e f (attempt_loop (hooks env p) p fuel s).state.sys) := by
  have key := attempt_loop_invariant (hooks env p) p
    (fun r => ∃ new, r.log = s.log ++ new ∧
      (∀ c x, Event.attempt c x ∈ new → solutions_are p e f x ∧ snapshots_are p e f x) ∧
      solutions_are p e f r.sys)
    (fun r => ∃ new, r.log = s.log ++ new ∧
      (∀ c x, Event.attempt c x ∈ new → solutions_are p e f x ∧ snapshots_are p e f x) ∧
      solutions_are p e f r.sys ∧ snapshots_are p e f r.sys)
    (fun r => ∃ new, r.log = s.log ++ new ∧
      (∀ c x, Event.attempt c x ∈ new → solutions_are p e f x ∧ snapshots_are p e f x) ∧
      snapshots_are p e f r.sys)
    ?_ ?_ ?_ ?_ ?_ ?_ fuel s ⟨[], by simp, by simp, hs⟩
  · rcases key with ⟨h | h, hn⟩
    · obtain ⟨new, hl, ha, _⟩ := h
      refine ⟨new, hl, ha, fun hnorm => ?_⟩
      obtain ⟨_, _, _, hsnap⟩ := hn hnorm
      exact hsnap
    · obtain ⟨new, hl, ha, hsnap⟩ := h
      exact ⟨new, hl, ha, fun _ => hsnap⟩
  · rintro r ⟨new, hl, ha, hsol⟩
    exact ⟨new, hl, ha, record_old_solution_spec p r.sys e f hsol⟩
  · rintro r ⟨new, hl, ha, hsol, hsnap⟩
    refine ⟨new ++ [.attempt r.ctl r.sys], ?_, ?_, ?_⟩
    · rw [call_staggered_scheme_log, hl, List.append_assoc]
    · intro c x hmem
      rcases List.mem_append.1 hmem with h | h
      · exact ha c x h
      · simp at h
        rw [h.2]
        exact ⟨hsol, hsnap⟩
    · rw [call_staggered_scheme_sys]
      exact staggered_scheme_snapshots env p r.sys e f hsnap
  · rintro r v ⟨new, hl, ha, hsnap⟩
    exact ⟨new, hl, ha, hsnap⟩
  · rintro r ⟨new, hl, ha, hsnap⟩
    refine ⟨new ++ [.residualShrink r.ctl.current_timestep (r.ctl.current_timestep / 10)],
      ?_, ?_, ?_⟩
    · rw [residual_shrink_log, hl, List.append_assoc]
    · intro c x hmem
      rcases List.mem_append.1 hmem with h | h
      · exact ha c x h
      · simp at h
    · exact return_old_solution_spec p r.sys e f hsnap
  · rintro r ⟨new, hl, ha, hsnap⟩
    refine ⟨new ++ [.stepTooSmall], ?_, ?_, ?_⟩
    · simp [Run.emit, hl]
    · intro c x hmem
      rcases List.mem_append.1 hmem with h | h
      · exact ha c x h
      · simp at h
    · exact hsnap
  · rintro r ⟨new, hl, ha, hsnap⟩
    refine ⟨new ++ [.solverDidNotConverge,
      .noConvergenceShrink r.ctl.current_timestep (r.ctl.current_timestep / 10)], ?_, ?_, ?_⟩
    · rw [on_no_convergence_log, hl, List.append_assoc]
    · intro c x hmem
      rcases List.mem_append.1 hmem with h | h
      · exact ha c x h
      · simp at h
    · exact (return_old_solution_spec p r.sys e f hsnap).1

/-- Claim C4: with `record_old_solution` as `old := current` and `return_old_solution` as
`current := old` on every enabled field, within one timestep of `run()` every call of
`staggered_scheme` (the first, every re-run of the residual loop, every retry after
`NoConvergence`) starts with the current solution and the old snapshot of every enabled
field equal to the solution the timestep started from, and at acceptance the old snapshot
still equals it. -/
theorem attempts_start_from_accepted_state (env : Collaborators Sol) (p : AllParameters)
    (fuel : ℕ) (s : Run (PhaseFieldFracture Sol)) :
    (∀ c x, Event.attempt c x ∈ events_since s (timestep (hooks env p) p fuel s).state →
      solutions_are p s.sys.elasticity.solution s.sys.phasefield.solution x ∧
      snapshots_are p s.sys.elasticity.solution s.sys.phasefield.solution x) ∧
    (∀ s1, attempt_loop (hooks env p) p fuel (begin_timestep p s).1 = .normal s1 →
      snapshots_are p s.sys.elasticity.solution s.sys.phasefield.solution s1.sys) := by
  have h0 : solutions_are p s.sys.elasticity.solution s.sys.phasefield.solution
      (begin_timestep p s).1.sys := by
    rw [begin_timestep_sys]
    exact ⟨rfl, fun _ => rfl⟩
  obtain ⟨new, hl, ha, hn⟩ := accepted_state_attempt_loop env p _ _ fuel _ h0
  refine ⟨?_, fun s1 h1 => ?_⟩
  · rcases timestep_cases (hooks env p) p fuel s with ⟨s1, h1, h2⟩ | ⟨_, _, h3⟩
    · rw [h1] at hl
      simp only [Exit.state] at hl
      have hlog : (timestep (hooks env p) p fuel s).state.log = s.log ++
          (.header s.ctl.timestep_number s.ctl.time (begin_timestep p s).2 :: new ++
            [.output { s1.ctl with current_timestep := (begin_timestep p s).2 }]) := by
        rw [h2]
        simp [Exit.state, end_timestep_log, hl, begin_timestep_log]
      rw [events_since_append s _ _ hlog]
      intro c x hmem
      simp at hmem
      exact ha c x hmem
    · have hlog : (timestep (hooks env p) p fuel s).state.log = s.log ++
          (.header s.ctl.timestep_number s.ctl.time (begin_timestep p s).2 :: new) := by
        rw [h3, hl]
        simp [begin_timestep_log]
      rw [events_since_append s _ _ hlog]
      intro c x hmem
      simp at hmem
      exact ha c x hmem
  · rw [h1] at hn
    exact hn rfl

end PhaseFieldFracture

/-! ## Termination of the residual loop when no attempt throws -/

theorem call_staggered_scheme_eq (H : Hooks σ) (s s1 : Run σ) (r : Option ℚ)
    (hc : call_staggered_scheme H s = (s1, r)) :
    s1.ctl = s.ctl ∧ s1.log = s.log ++ [.attempt s.ctl s.sys] ∧
    s1.newton_reduction = s.newton_reduction ∧ r = (H.staggered_scheme s.ctl s.sys).2 ∧
    s1.sys = (H.staggered_scheme s.ctl s.sys).1 := by
  have h1 : (call_staggered_scheme H s).1 = s1 := by rw [hc]
  have h2 : (call_staggered_scheme H s).2 = r := by rw [hc]
  subst h1
  subst h2
  exact ⟨rfl, rfl, rfl, rfl, rfl⟩

theorem exists_shrink_count (ts : ℚ) : ∃ n : ℕ, ts / 10 ^ (n + 1) < step_floor := by
  obtain ⟨n, hn⟩ := pow_unbounded_of_one_lt (ts * 10 ^ 9) (by norm_num : (1 : ℚ) < 10)
  refine ⟨n, ?_⟩
  unfold step_floor
  rw [div_lt_div_iff₀ (by positivity) (by positivity)]
  have h10 : (10 : ℚ) ^ n < 10 ^ (n + 1) := by
    rw [pow_succ]
    have : (0 : ℚ) < 10 ^ n := by positivity
    linarith
  linarith

theorem residual_loop_terminates (H : Hooks σ) (p : AllParameters)
    (hno : ∀ c x, (H.staggered_scheme c x).2 ≠ none) :
    ∀ (n : ℕ) (s : Run σ), s.newton_reduction > p.upper_newton_rho →
      s.ctl.current_timestep / 10 ^ (n + 1) < step_floor → 0 < s.ctl.current_timestep →
      ∃ s' new, residual_loop H p (n + 1) s = .normal s' ∧ 0 < s'.ctl.current_timestep ∧
        s'.ctl.current_timestep < step_floor ∧ s'.log = s.log ++ new ∧
        Event.stepTooSmall ∈ new ∧ s'.newton_reduction = s.newton_reduction := by
  intro n
  induction n with
  | zero =>
    intro s hgt hlt hpos
    rcases hc : call_staggered_scheme H (residual_shrink H s) with ⟨s1, _ | r⟩
    · exact absurd (call_staggered_scheme_eq H _ _ _ hc).2.2.2.1.symm (hno _ _)
    · obtain ⟨hctl, hlog, hnr, _, _⟩ := call_staggered_scheme_eq H _ _ _ hc
      have hstep : s1.ctl.current_timestep = s.ctl.current_timestep / 10 := by
        rw [hctl, residual_shrink_step]
      have hf : s1.ctl.current_timestep < step_floor := by
        rw [hstep]
        simpa using hlt
      refine ⟨s1.emit .stepTooSmall,
        [.residualShrink s.ctl.current_timestep (s.ctl.current_timestep / 10),
         .attempt (residual_shrink H s).ctl (residual_shrink H s).sys, .stepTooSmall],
        residual_loop_floor H p 0 s s1 r hgt hc hf, ?_, hf, ?_, ?_, ?_⟩
      · show 0 < s1.ctl.current_timestep
        rw [hstep]
        positivity
      · show s1.log ++ [Event.stepTooSmall] = s.log ++ _
        rw [hlog, residual_shrink_log]
        simp
      · simp
      · show s1.newton_reduction = s.newton_reduction
        rw [hnr, residual_shrink_reduction]
  | succ n ih =>
    intro s hgt hlt hpos
    rcases hc : call_staggered_scheme H (residual_shrink H s) with ⟨s1, _ | r⟩
    · exact absurd (call_staggered_scheme_eq H _ _ _ hc).2.2.2.1.symm (hno _ _)
    · obtain ⟨hctl, hlog, hnr, _, _⟩ := call_staggered_scheme_eq H _ _ _ hc
      have hstep : s1.ctl.current_timestep = s.ctl.current_timestep / 10 := by
        rw [hctl, residual_shrink_step]
      have hpos1 : 0 < s1.ctl.current_timestep := by
        rw [hstep]
        positivity
      have hnr1 : s1.newton_reduction = s.newton_reduction := by
        rw [hnr, residual_shrink_reduction]
      by_cases hf : s1.ctl.current_timestep < step_floor
      · refine ⟨s1.emit .stepTooSmall,
          [.residualShrink s.ctl.current_timestep (s.ctl.current_timestep / 10),
           .attempt (residual_shrink H s).ctl (residual_shrink H s).sys, .stepTooSmall],
          residual_loop_floor H p _ s s1 r hgt hc hf, hpos1, hf, ?_, ?_, hnr1⟩
        · show s1.log ++ [Event.stepTooSmall] = s.log ++ _
          rw [hlog, residual_shrink_log]
          simp
        · simp
      · have hlt1 : s1.ctl.current_timestep / 10 ^ (n + 1) < step_floor := by
          rw [hstep, div_div, ← pow_succ']
          exact hlt
        obtain ⟨s', new, he, hp', hf', hl', hm', hn'⟩ := ih s1 (by rw [hnr1]; exact hgt) hlt1 hpos1
        refine ⟨s',
          .residualShrink s.ctl.current_timestep (s.ctl.current_timestep / 10) ::
            .attempt (residual_shrink H s).ctl (residual_shrink H s).sys :: new,
          ?_, hp', hf', ?_, ?_, hn'.trans hnr1⟩
        · rw [residual_loop_again H p _ s s1 r hgt hc hf]
          exact he
        · rw [hl', hlog, residual_shrink_log]
          simp
        · simp [hm']

/-- Claim C6: from a positive step, when no call of `staggered_scheme` throws, the attempt
loop (first attempt and residual-retry loop) terminates; on exit `current_timestep` is
positive, and either it is at most `1.0e-9` and the warning `"Step size too small"` was
printed, or `newton_reduction <= upper_newton_rho`. -/
theorem residual_retry_terminates (H : Hooks σ) (p : AllParameters) (s : Run σ)
    (hpos : 0 < s.ctl.current_timestep)
    (hno : ∀ c x, (H.staggered_scheme c x).2 ≠ none) :
    ∃ fuel s', attempt_loop H p fuel s = .normal s' ∧
      0 < s'.ctl.current_timestep ∧
      ((s'.ctl.current_timestep ≤ step_floor ∧ Event.stepTooSmall ∈ events_since s s') ∨
        s'.newton_reduction ≤ p.upper_newton_rho) := by
  rcases hc : call_staggered_scheme H { s with sys := H.record_old_solution s.ctl s.sys }
    with ⟨s1, _ | r⟩
  · exact absurd (call_staggered_scheme_eq H _ _ _ hc).2.2.2.1.symm (hno _ _)
  · obtain ⟨hctl, hlog, _, _, _⟩ := call_staggered_scheme_eq H _ _ _ hc
    have hctl1 : s1.ctl = s.ctl := hctl
    by_cases hgt : r > p.upper_newton_rho
    · obtain ⟨n, hn⟩ := exists_shrink_count s.ctl.current_timestep
      obtain ⟨s', new, he, hp', hf', hl', hm', hn'⟩ :=
        residual_loop_terminates H p hno n { s1 with newton_reduction := r } hgt
          (by show s1.ctl.current_timestep / 10 ^ (n + 1) < step_floor; rw [hctl1]; exact hn)
          (by show 0 < s1.ctl.current_timestep; rw [hctl1]; exact hpos)
      refine ⟨n + 2, s', ?_, hp', Or.inl ⟨le_of_lt hf', ?_⟩⟩
      · rw [attempt_loop_return H p (n + 1) s s1 r hc, he]
      · have hl2 : s'.log = s.log ++ (Event.attempt s.ctl (H.record_old_solution s.ctl s.sys) ::
            new) := by
          rw [hl']
          show s1.log ++ new = _
          rw [hlog]
          simp
        rw [events_since_append s s' _ hl2]
        simp [hm']
    · refine ⟨1, { s1 with newton_reduction := r }, ?_, ?_, Or.inr (not_lt.1 hgt)⟩
      · rw [attempt_loop_return H p 0 s s1 r hc,
          residual_loop_done H p 0 { s1 with newton_reduction := r } hgt]
      · show 0 < s1.ctl.current_timestep
        rw [hctl1]
        exact hpos

/-! ## A run in which every attempt converges -/

theorem timestep_converging (H : Hooks σ) (p : AllParameters) (fuel : ℕ) (s : Run σ)
    (hsw : p.switch_timestep = 0)
    (hconv : ∀ c x, ∃ r, (H.staggered_scheme c x).2 = some r ∧ r ≤ p.upper_newton_rho) :
    ∃ s' c x c', timestep H p (fuel + 1) s = .normal s' ∧
      s'.ctl.time = s.ctl.time + s.ctl.current_timestep ∧
      s'.ctl.current_timestep = s.ctl.current_timestep ∧
      s'.ctl.timestep_number = s.ctl.timestep_number + 1 ∧
      s'.log = s.log ++ [.header s.ctl.timestep_number s.ctl.time s.ctl.current_timestep,
        .attempt c x, .output c'] := by
  have hval : (begin_timestep p s).2 = s.ctl.current_timestep := by
    rw [begin_timestep_value]
    simp [hsw]
  rcases hc : call_staggered_scheme H { (begin_timestep p s).1 with
      sys := H.record_old_solution (begin_timestep p s).1.ctl (begin_timestep p s).1.sys }
    with ⟨s1, _ | r⟩
  · obtain ⟨_, _, _, hres, _⟩ := call_staggered_scheme_eq H _ _ _ hc
    obtain ⟨r, hr, _⟩ := hconv (begin_timestep p s).1.ctl
      (H.record_old_solution (begin_timestep p s).1.ctl (begin_timestep p s).1.sys)
    have : (none : Option ℚ) = some r := hres.trans hr
    exact absurd this (by simp)
  · obtain ⟨hctl, hlog, _, hres, _⟩ := call_staggered_scheme_eq H _ _ _ hc
    obtain ⟨r', hr', hle⟩ := hconv (begin_timestep p s).1.ctl
      (H.record_old_solution (begin_timestep p s).1.ctl (begin_timestep p s).1.sys)
    have hrr : r = r' := Option.some.inj (hres.trans hr')
    have hngt : ¬ r > p.upper_newton_rho := by
      rw [hrr]
      exact not_lt.2 hle
    have hloop : attempt_loop H p (fuel + 1) (begin_timestep p s).1 =
        .normal { s1 with newton_reduction := r } := by
      rw [attempt_loop_return H p fuel _ s1 r hc,
        residual_loop_done H p fuel { s1 with newton_reduction := r } hngt]
    have hctl1 : s1.ctl = (begin_timestep p s).1.ctl := hctl
    refine ⟨end_timestep H (begin_timestep p s).2 { s1 with newton_reduction := r },
      (begin_timestep p s).1.ctl,
      H.record_old_solution (begin_timestep p s).1.ctl (begin_timestep p s).1.sys,
      { s1.ctl with current_timestep := (begin_timestep p s).2 },
      ?_, ?_, ?_, ?_, ?_⟩
    · simp [timestep, hloop]
    · show s1.ctl.time = _
      rw [hctl1, begin_timestep_time, hval]
    · exact hval
    · show s1.ctl.timestep_number + 1 = _
      rw [hctl1, begin_timestep_number]
    · rw [end_timestep_log]
      show s1.log ++ _ = _
      rw [hlog]
      show ((begin_timestep p s).1.log ++ _) ++ _ = _
      rw [begin_timestep_log, hval]
      simp

theorem timestep_loop_last (H : Hooks σ) (p : AllParameters) (fuel steps : ℕ) (s : Run σ)
    (hsw : p.switch_timestep = 0)
    (hconv : ∀ c x, ∃ r, (H.staggered_scheme c x).2 = some r ∧ r ≤ p.upper_newton_rho)
    (hn : p.max_no_timesteps ≤ s.ctl.timestep_number) :
    ∃ s' new, timestep_loop H p (fuel + 1) (steps + 1) s = .normal s' ∧
      s'.ctl.timestep_number = s.ctl.timestep_number + 1 ∧
      s'.ctl.time = s.ctl.time + s.ctl.current_timestep ∧
      s'.ctl.current_timestep = s.ctl.current_timestep ∧
      s'.log = s.log ++ new ∧ headers new = 1 ∧ shrinks new = 0 ∧
      (∀ n t ts, Event.header n t ts ∈ new → n = s.ctl.timestep_number) := by
  obtain ⟨s1, c, x, c', h1, ht, hc, hnum, hlog⟩ := timestep_converging H p fuel s hsw hconv
  refine ⟨s1, _, ?_, hnum, ht, hc, hlog, by simp [headers], by simp [shrinks], ?_⟩
  · have : ¬ s1.ctl.timestep_number ≤ p.max_no_timesteps := by omega
    simp [timestep_loop, h1, this]
  · intro n t ts hmem
    simp at hmem
    exact hmem.1

theorem timestep_loop_converging (H : Hooks σ) (p : AllParameters) (fuel : ℕ)
    (hsw : p.switch_timestep = 0)
    (hconv : ∀ c x, ∃ r, (H.staggered_scheme c x).2 = some r ∧ r ≤ p.upper_newton_rho) :
    ∀ (k steps : ℕ) (s : Run σ), s.ctl.timestep_number + k = p.max_no_timesteps →
      k + 1 ≤ steps →
      ∃ s' new, timestep_loop H p (fuel + 1) steps s = .normal s' ∧
        s'.ctl.timestep_number = p.max_no_timesteps + 1 ∧
        s'.ctl.time = s.ctl.time + (k + 1 : ℕ) * s.ctl.current_timestep ∧
        s'.ctl.current_timestep = s.ctl.current_timestep ∧
        s'.log = s.log ++ new ∧ headers new = k + 1 ∧ shrinks new = 0 ∧
        (∀ n t ts, Event.header n t ts ∈ new →
          s.ctl.timestep_number ≤ n ∧ n ≤ p.max_no_timesteps) := by
  intro k
  induction k with
  | zero =>
    intro steps s hk hsteps
    obtain ⟨j, rfl⟩ : ∃ j, steps = j + 1 := ⟨steps - 1, by omega⟩
    obtain ⟨s', new, h1, hnum, ht, hc, hlog, hh, hs, hmem⟩ :=
      timestep_loop_last H p fuel j s hsw hconv (by omega)
    refine ⟨s', new, h1, by omega, ?_, hc, hlog, by simpa using hh, hs, ?_⟩
    · rw [ht]
      simp
    · intro n t ts hm
      have := hmem n t ts hm
      omega
  | succ k ih =>
    intro steps s hk hsteps
    obtain ⟨j, rfl⟩ : ∃ j, steps = j + 1 := ⟨steps - 1, by omega⟩
    obtain ⟨s1, c, x, c', h1, ht, hc, hnum, hlog⟩ := timestep_converging H p fuel s hsw hconv
    obtain ⟨s', new, h2, hnum', ht', hc', hlog', hh, hs, hmem⟩ :=
      ih j s1 (by omega) (by omega)
    refine ⟨s', [.header s.ctl.timestep_number s.ctl.time s.ctl.current_timestep,
      .attempt c x, .output c'] ++ new, ?_, hnum', ?_, hc'.trans hc, ?_, ?_, ?_, ?_⟩
    · have : s1.ctl.timestep_number ≤ p.max_no_timesteps := by omega
      simp [timestep_loop, h1, this, h2]
    · rw [ht', ht, hc]
      push_cast
      ring
    · rw [hlog', hlog, List.append_assoc]
    · rw [headers_append, hh]
      simp [headers]
      omega
    · rw [shrinks_append, hs]
      simp [shrinks]
    · intro n t ts hm
      rcases List.mem_append.1 hm with h | h
      · simp at h
        omega
      · have := hmem n t ts h
        omega

theorem run_mesh_present (H : Hooks σ) (p : AllParameters) (fuel steps : ℕ) (s : Run σ) :
    ∃ s0 : Run σ, run H p true fuel steps s = timestep_loop H p fuel steps s0 ∧
      s0.ctl.timestep_number = s.ctl.timestep_number ∧ s0.ctl.time = s.ctl.time ∧
      s0.ctl.current_timestep = p.timestep ∧ s0.log = s.log :=
  ⟨{ ctl := { time := s.ctl.time, current_timestep := p.timestep, old_timestep := p.timestep,
              timestep_number := s.ctl.timestep_number },
     sys := H.setup_system s.ctl s.sys, newton_reduction := s.newton_reduction, log := s.log },
    by simp only [run, if_true], rfl, rfl, rfl, rfl⟩

/-- Claim C7: when the mesh file exists, `switch_timestep = 0` and every call of
`staggered_scheme` returns a reduction at most `upper_newton_rho`, `run()` started with
timestep number `n0` at time `t0` ends normally after exactly `max(1, m - n0 + 1)`
executions of the loop body (`m = max_no_timesteps`), without any shrink, with
`timestep_number = max(n0, m) + 1 > m` and `time = t0 + executions * timestep`; every body
after the first was entered with `timestep_number <= m`. -/
theorem converging_run (H : Hooks σ) (p : AllParameters) (fuel steps : ℕ) (s : Run σ)
    (hsw : p.switch_timestep = 0)
    (hconv : ∀ c x, ∃ r, (H.staggered_scheme c x).2 = some r ∧ r ≤ p.upper_newton_rho)
    (hfuel : 0 < fuel)
    (hsteps : max 1 (p.max_no_timesteps + 1 - s.ctl.timestep_number) ≤ steps) :
    ∃ s', run H p true fuel steps s = .normal s' ∧
      (headers (events_since s s') : ℤ) =
        max 1 ((p.max_no_timesteps : ℤ) - s.ctl.timestep_number + 1) ∧
      shrinks (events_since s s') = 0 ∧
      s'.ctl.timestep_number = max s.ctl.timestep_number p.max_no_timesteps + 1 ∧
      s'.ctl.time = s.ctl.time + headers (events_since s s') * p.timestep ∧
      p.max_no_timesteps < s'.ctl.timestep_number ∧
      (∀ n t ts, Event.header n t ts ∈ events_since s s' →
        n = s.ctl.timestep_number ∨ n ≤ p.max_no_timesteps) := by
  obtain ⟨f, rfl⟩ : ∃ f, fuel = f + 1 := ⟨fuel - 1, by omega⟩
  obtain ⟨s0, hrun, h0n, h0t, h0c, h0l⟩ := run_mesh_present H p (f + 1) steps s
  rw [hrun]
  by_cases hn : s.ctl.timestep_number ≤ p.max_no_timesteps
  · obtain ⟨s', new, h1, hnum, ht, hc, hlog, hh, hs, hmem⟩ :=
      timestep_loop_converging H p f hsw hconv (p.max_no_timesteps - s.ctl.timestep_number)
        steps s0 (by omega) (by rw [max_def] at hsteps; split at hsteps <;> omega)
    rw [h0l] at hlog
    refine ⟨s', h1, ?_⟩
    rw [events_since_append s s' new hlog]
    refine ⟨?_, hs, ?_, ?_, ?_, ?_⟩
    · rw [hh]
      rw [max_def]
      split <;> omega
    · rw [hnum, max_eq_right hn]
    · rw [ht, hh, h0t, h0c]
    · omega
    · intro n t ts hm
      exact Or.inr (hmem n t ts hm).2
  · obtain ⟨j, rfl⟩ : ∃ j, steps = j + 1 :=
      ⟨steps - 1, by rw [max_def] at hsteps; split at hsteps <;> omega⟩
    obtain ⟨s', new, h1, hnum, ht, hc, hlog, hh, hs, hmem⟩ :=
      timestep_loop_last H p f j s0 hsw hconv (by omega)
    rw [h0l] at hlog
    refine ⟨s', h1, ?_⟩
    rw [events_since_append s s' new hlog]
    refine ⟨?_, hs, ?_, ?_, ?_, ?_⟩
    · rw [hh]
      rw [max_def]
      split <;> omega
    · rw [hnum, h0n, max_eq_left (by omega)]
    · rw [ht, hh, h0t, h0c]
      simp
    · omega
    · intro n t ts hm
      rw [← h0n]
      exact Or.inl (hmem n t ts hm)

/-! ## Restoring `current_timestep` on acceptance -/

theorem attempt_frame_attempt_loop (H : Hooks σ) (p : AllParameters) (L : List (Event σ))
    (n fuel : ℕ) (s : Run σ) (hs : AttemptFrame L n s) :
    AttemptFrame L n (attempt_loop H p fuel s).state := by
  have key := attempt_loop_invariant H p (AttemptFrame L n) (AttemptFrame L n)
    (AttemptFrame L n) ?_ ?_ ?_ ?_ ?_ ?_ fuel s hs
  · exact key.1.elim id id
  · intro s h
    exact h
  · rintro s ⟨new, hl, ha, hn⟩
    refine ⟨new ++ [.attempt s.ctl s.sys], ?_, ?_, hn⟩
    · rw [call_staggered_scheme_log, hl, List.append_assoc]
    · intro e hmem
      rcases List.mem_append.1 hmem with h | h
      · exact ha e h
      · simp at h
        rw [h]
        rfl
  · rintro s r ⟨new, hl, ha, hn⟩
    exact ⟨new, hl, ha, hn⟩
  · rintro s ⟨new, hl, ha, hn⟩
    refine ⟨new ++ [.residualShrink s.ctl.current_timestep (s.ctl.current_timestep / 10)],
      ?_, ?_, hn⟩
    · rw [residual_shrink_log, hl, List.append_assoc]
    · intro e hmem
      rcases List.mem_append.1 hmem with h | h
      · exact ha e h
      · simp at h
        rw [h]
        rfl
  · rintro s ⟨new, hl, ha, hn⟩
    refine ⟨new ++ [.stepTooSmall], ?_, ?_, hn⟩
    · simp [Run.emit, hl]
    · intro e hmem
      rcases List.mem_append.1 hmem with h | h
      · exact ha e h
      · simp at h
        rw [h]
        rfl
  · rintro s ⟨new, hl, ha, hn⟩
    refine ⟨new ++ [.solverDidNotConverge,
      .noConvergenceShrink s.ctl.current_timestep (s.ctl.current_timestep / 10)], ?_, ?_, hn⟩
    · rw [on_no_convergence_log, hl, List.append_assoc]
    · intro e hmem
      rcases List.mem_append.1 hmem with h | h
      · exact ha e h
      · simp at h
        rcases h with h | h <;> rw [h] <;> rfl

/-- The log of one timestep: the header, the events of the attempt loop and, when the step
is accepted, the output made with the restored step size. -/
theorem timestep_frame (H : Hooks σ) (p : AllParameters) (fuel : ℕ) (s : Run σ) :
    ∃ mid : List (Event σ), (∀ e ∈ mid, e.isAttemptEvent = true) ∧
      ((∃ s' c, timestep H p fuel s = .normal s' ∧
          s'.log = s.log ++ (.header s.ctl.timestep_number s.ctl.time (begin_timestep p s).2 ::
            mid ++ [.output c]) ∧
          c.current_timestep = (begin_timestep p s).2 ∧
          c.timestep_number = s.ctl.timestep_number ∧
          s'.ctl.current_timestep = (begin_timestep p s).2 ∧
          s'.ctl.timestep_number = s.ctl.timestep_number + 1) ∨
       ((timestep H p fuel s).isNormal = false ∧
          (timestep H p fuel s).state.log =
            s.log ++ (.header s.ctl.timestep_number s.ctl.time (begin_timestep p s).2 ::
              mid))) := by
  have h0 : AttemptFrame
      (s.log ++ [.header s.ctl.timestep_number s.ctl.time (begin_timestep p s).2])
      s.ctl.timestep_number (begin_timestep p s).1 :=
    ⟨[], by simp [begin_timestep_log], by simp, begin_timestep_number p s⟩
  obtain ⟨mid, hl, ha, hn⟩ := attempt_frame_attempt_loop H p _ _ fuel _ h0
  refine ⟨mid, ha, ?_⟩
  rcases timestep_cases H p fuel s with ⟨s1, h1, h2⟩ | ⟨_, hnn, h3⟩
  · rw [h1] at hl hn
    simp only [Exit.state] at hl hn
    refine Or.inl ⟨_, { s1.ctl with current_timestep := (begin_timestep p s).2 }, h2, ?_, rfl,
      hn, rfl, ?_⟩
    · rw [end_timestep_log, hl]
      simp
    · rw [end_timestep_ctl]
      show s1.ctl.timestep_number + 1 = _
      rw [hn]
  · refine Or.inr ⟨hnn, ?_⟩
    rw [h3, hl]
    simp

theorem head_step_begin (p : AllParameters) (s : Run σ) (h : HeadStep p s) :
    (begin_timestep p s).2 = step_in_force p s.ctl.timestep_number := by
  rw [begin_timestep_value]
  unfold step_in_force
  by_cases hc : s.ctl.timestep_number > p.switch_timestep ∧ p.switch_timestep > 0
  · simp only [hc, and_self, if_true]
  · simp only [hc, if_false]
    rcases h with h | ⟨_, h2, h3⟩
    · exact h
    · exact absurd ⟨h3, h2⟩ hc

theorem head_step_next (p : AllParameters) (s s' : Run σ)
    (hc : s'.ctl.current_timestep = step_in_force p s.ctl.timestep_number)
    (hn : s'.ctl.timestep_number = s.ctl.timestep_number + 1) : HeadStep p s' := by
  unfold step_in_force at hc
  by_cases h : s.ctl.timestep_number > p.switch_timestep ∧ p.switch_timestep > 0
  · simp only [h, and_self, if_true] at hc
    exact Or.inr ⟨hc, h.2, by omega⟩
  · simp only [h, if_false] at hc
    exact Or.inl hc

theorem timestep_loop_steps (H : Hooks σ) (p : AllParameters) (fuel : ℕ) :
    ∀ (steps : ℕ) (s : Run σ), HeadStep p s →
      ∃ new : List (Event σ), (timestep_loop H p fuel steps s).state.log = s.log ++ new ∧
        (∀ n t ts, Event.header n t ts ∈ new → ts = step_in_force p n) ∧
        (∀ c, Event.output c ∈ new → c.current_timestep = step_in_force p c.timestep_number) ∧
        (∀ s', timestep_loop H p fuel steps s = .normal s' →
          s'.ctl.current_timestep = step_in_force p (s'.ctl.timestep_number - 1)) := by
  intro steps
  induction steps with
  | zero =>
    intro s _
    exact ⟨[], by simp [timestep_loop, Exit.state], by simp, by simp,
      fun s' h => by simp [timestep_loop] at h⟩
  | succ k ih =>
    intro s hs
    have hb := head_step_begin p s hs
    obtain ⟨mid, hmid, hcase⟩ := timestep_frame H p fuel s
    rcases hcase with ⟨s1, c, h1, hlog, hcc, hcn, hsc, hsn⟩ | ⟨hnn, hlog⟩
    · by_cases hle : s1.ctl.timestep_number ≤ p.max_no_timesteps
      · have heq : timestep_loop H p fuel (k + 1) s = timestep_loop H p fuel k s1 := by
          simp [timestep_loop, h1, hle]
        obtain ⟨new, hl, hh, ho, hfin⟩ := ih s1 (head_step_next p s s1 (hsc.trans hb) hsn)
        rw [heq]
        refine ⟨(.header s.ctl.timestep_number s.ctl.time (begin_timestep p s).2 ::
            mid ++ [.output c]) ++ new, ?_, ?_, ?_, hfin⟩
        · rw [hl, hlog, List.append_assoc]
        · intro n t ts hm
          rcases List.mem_append.1 hm with h | h
          · simp at h
            rcases h with h | h
            · rw [h.1, h.2.2, hb]
            · have := hmid _ h
              simp [Event.isAttemptEvent] at this
          · exact hh n t ts h
        · intro c' hm
          rcases List.mem_append.1 hm with h | h
          · simp at h
            rcases h with h | h
            · have := hmid _ h
              simp [Event.isAttemptEvent] at this
            · rw [h, hcc, hcn, hb]
          · exact ho c' h
      · have heq : timestep_loop H p fuel (k + 1) s = .normal s1 := by
          simp [timestep_loop, h1, hle]
        rw [heq]
        refine ⟨.header s.ctl.timestep_number s.ctl.time (begin_timestep p s).2 ::
            mid ++ [.output c], (by simpa [Exit.state] using hlog), ?_, ?_, ?_⟩
        · intro n t ts hm
          simp at hm
          rcases hm with h | h
          · rw [h.1, h.2.2, hb]
          · have := hmid _ h
            simp [Event.isAttemptEvent] at this
        · intro c' hm
          simp at hm
          rcases hm with h | h
          · have := hmid _ h
            simp [Event.isAttemptEvent] at this
          · rw [h, hcc, hcn, hb]
        · intro s' hs'
          have : s' = s1 := (Exit.normal.inj hs').symm
          rw [this, hsn, hsc, hb]
          simp
    · have heq : (timestep_loop H p fuel (k + 1) s).state = (timestep H p fuel s).state ∧
          (timestep_loop H p fuel (k + 1) s).isNormal = false := by
        rcases ht : timestep H p fuel s with s1 | s1 | s1 | s1
        · rw [ht] at hnn
          simp [Exit.isNormal] at hnn
        · simp [timestep_loop, ht, Exit.state, Exit.isNormal]
        · simp [timestep_loop, ht, Exit.state, Exit.isNormal]
        · simp [timestep_loop, ht, Exit.state, Exit.isNormal]
      rw [heq.1]
      refine ⟨.header s.ctl.timestep_number s.ctl.time (begin_timestep p s).2 :: mid, hlog,
        ?_, ?_, ?_⟩
      · intro n t ts hm
        simp at hm
        rcases hm with h | h
        · rw [h.1, h.2.2, hb]
        · have := hmid _ h
          simp [Event.isAttemptEvent] at this
      · intro c' hm
        simp at hm
        have := hmid _ hm
        simp [Event.isAttemptEvent] at this
      · intro s' hs'
        have := heq.2
        rw [hs'] at this
        simp [Exit.isNormal] at this

/-- Claim C5: whatever the hooks do, an accepted timestep leaves `current_timestep` equal
to `tmp_current_timestep`, the value it had when the attempt loop began, and
`output_results()` is called with that value; over a whole `run()` this value is
`params.timestep`, or `timestep_size_2` for timestep numbers past a positive
`switch_timestep`, at every header line, at every output and after the last accepted
step. -/
theorem current_timestep_restored (H : Hooks σ) (p : AllParameters) (mesh_file_exists : Bool)
    (fuel steps : ℕ) (s : Run σ) :
    (∀ s0 s1, timestep H p fuel s0 = .normal s1 →
      s1.ctl.current_timestep = (begin_timestep p s0).2 ∧
      s1.ctl.timestep_number = s0.ctl.timestep_number + 1 ∧
      (∀ c, Event.output c ∈ events_since s0 s1 →
        c.current_timestep = (begin_timestep p s0).2)) ∧
    (∀ n t ts,
      Event.header n t ts ∈ events_since s (run H p mesh_file_exists fuel steps s).state →
      ts = step_in_force p n) ∧
    (∀ c, Event.output c ∈ events_since s (run H p mesh_file_exists fuel steps s).state →
      c.current_timestep = step_in_force p c.timestep_number) ∧
    (∀ s', run H p mesh_file_exists fuel steps s = .normal s' →
      s'.ctl.current_timestep = step_in_force p (s'.ctl.timestep_number - 1)) := by
  refine ⟨?_, ?_⟩
  · intro s0 s1 h01
    obtain ⟨mid, hmid, hcase⟩ := timestep_frame H p fuel s0
    rcases hcase with ⟨s1', c, h1, hlog, hcc, hcn, hsc, hsn⟩ | ⟨hnn, _⟩
    · have : s1 = s1' := Exit.normal.inj (h01.symm.trans h1)
      subst this
      refine ⟨hsc, hsn, ?_⟩
      rw [events_since_append s0 s1 _ hlog]
      intro c' hm
      simp at hm
      rcases hm with h | h
      · have := hmid _ h
        simp [Event.isAttemptEvent] at this
      · rw [h, hcc]
    · rw [h01] at hnn
      simp [Exit.isNormal] at hnn
  · cases mesh_file_exists
    · have hrun : run H p false fuel steps s = .meshFileMissing s := by simp [run]
      rw [hrun]
      simp [Exit.state, events_since]
    · obtain ⟨s0, hrun, h0n, h0t, h0c, h0l⟩ := run_mesh_present H p fuel steps s
      obtain ⟨new, hl, hh, ho, hfin⟩ := timestep_loop_steps H p fuel steps s0 (Or.inl h0c)
      rw [hrun]
      rw [h0l] at hl
      rw [events_since_append s _ new hl]
      exact ⟨hh, ho, hfin⟩

/-! ## The floor check of the residual loop -/

theorem floor_checked_nil (H : Hooks σ) (normal : Bool) : FloorChecked H [] normal := by
  intro pre b a c x post h
  simp at h

theorem floor_checked_cons (H : Hooks σ) (e : Event σ) (l : List (Event σ)) (normal : Bool)
    (he : ∀ b a, e ≠ .residualShrink b a) (hl : FloorChecked H l normal) :
    FloorChecked H (e :: l) normal := by
  intro pre b a c x post h ha hr
  cases pre with
  | nil =>
    simp at h
    exact absurd h.1 (he b a)
  | cons e' pre' =>
    simp at h
    exact hl pre' b a c x post h.2 ha hr

theorem floor_checked_shrink (H : Hooks σ) (b a : ℚ) (c : Controller) (x : σ)
    (l : List (Event σ)) (normal : Bool) (hl : FloorChecked H l normal)
    (hhead : a < step_floor → (H.staggered_scheme c x).2 ≠ none →
      l = [.stepTooSmall] ∧ normal = true) :
    FloorChecked H (.residualShrink b a :: .attempt c x :: l) normal := by
  intro pre b' a' c' x' post h ha hr
  cases pre with
  | nil =>
    simp at h
    obtain ⟨⟨_, h2⟩, ⟨h3, h4⟩, h5⟩ := h
    subst h2 h3 h4 h5
    exact hhead ha hr
  | cons e1 pre1 =>
    cases pre1 with
    | nil =>
      simp at h
    | cons e2 pre2 =>
      simp at h
      exact hl pre2 b' a' c' x' post h.2.2 ha hr

theorem floor_checked_append (H : Hooks σ) (l1 l2 : List (Event σ)) (e : Event σ)
    (normal : Bool) (he : ∀ b a, e ≠ .residualShrink b a) (he' : ∀ c x, e ≠ .attempt c x)
    (h1 : FloorChecked H l1 false) (h2 : FloorChecked H l2 normal) :
    FloorChecked H (l1 ++ e :: l2) normal := by
  intro pre b a c x post h ha hr
  rcases List.append_eq_append_iff.1 h with ⟨a', hpre, hrest⟩ | ⟨c', hl1, hrest⟩
  · cases a' with
    | nil =>
      simp at hrest
      exact absurd hrest.1 (he b a)
    | cons e' a'' =>
      simp at hrest
      exact h2 a'' b a c x post hrest.2 ha hr
  · cases c' with
    | nil =>
      simp at hrest
      exact absurd hrest.1.symm (he b a)
    | cons e1 c1 =>
      cases c1 with
      | nil =>
        simp at hrest
        exact absurd hrest.2.1.symm (he' c x)
      | cons e2 c2 =>
        simp at hrest
        obtain ⟨h3, h4, _⟩ := hrest
        subst h3 h4
        have := (h1 pre b a c x c2 hl1 ha hr).2
        simp at this

theorem floor_checked_residual_loop (H : Hooks σ) (p : AllParameters) :
    ∀ (fuel : ℕ) (s : Run σ), ∃ new : List (Event σ),
      (residual_loop H p fuel s).state.log = s.log ++ new ∧
      FloorChecked H new (residual_loop H p fuel s).isNormal := by
  intro fuel
  induction fuel with
  | zero =>
    intro s
    refine ⟨[], ?_, floor_checked_nil H _⟩
    unfold residual_loop
    split <;> simp [Exit.state]
  | succ n ih =>
    intro s
    by_cases hgt : s.newton_reduction > p.upper_newton_rho
    · rcases hc : call_staggered_scheme H (residual_shrink H s) with ⟨s1, _ | r⟩
      · obtain ⟨hctl, hlog, _, hres, _⟩ := call_staggered_scheme_eq H _ _ _ hc
        rw [residual_loop_raise H p n s s1 hgt hc]
        refine ⟨[.residualShrink s.ctl.current_timestep (s.ctl.current_timestep / 10),
          .attempt (residual_shrink H s).ctl (residual_shrink H s).sys], ?_, ?_⟩
        · show s1.log = _
          rw [hlog, residual_shrink_log]
          simp
        · apply floor_checked_shrink H _ _ _ _ _ _ (floor_checked_nil H _)
          intro _ hr
          exact absurd hres.symm hr
      · obtain ⟨hctl, hlog, _, hres, _⟩ := call_staggered_scheme_eq H _ _ _ hc
        have hstep : s1.ctl.current_timestep = s.ctl.current_timestep / 10 := by
          rw [hctl, residual_shrink_step]
        by_cases hf : s1.ctl.current_timestep < step_floor
        · rw [residual_loop_floor H p n s s1 r hgt hc hf]
          refine ⟨[.residualShrink s.ctl.current_timestep (s.ctl.current_timestep / 10),
            .attempt (residual_shrink H s).ctl (residual_shrink H s).sys, .stepTooSmall],
            ?_, ?_⟩
          · show s1.log ++ [Event.stepTooSmall] = _
            rw [hlog, residual_shrink_log]
            simp
          · apply floor_checked_shrink H
            · exact floor_checked_cons H _ _ _ (fun _ _ => by simp) (floor_checked_nil H _)
            · intro _ _
              exact ⟨rfl, rfl⟩
        · rw [residual_loop_again H p n s s1 r hgt hc hf]
          obtain ⟨new, hl, hfc⟩ := ih s1
          refine ⟨.residualShrink s.ctl.current_timestep (s.ctl.current_timestep / 10) ::
            .attempt (residual_shrink H s).ctl (residual_shrink H s).sys :: new, ?_, ?_⟩
          · rw [hl, hlog, residual_shrink_log]
            simp
          · apply floor_checked_shrink H _ _ _ _ _ _ hfc
            intro ha _
            rw [← hstep] at ha
            exact absurd ha hf
    · rw [residual_loop_done H p _ s hgt]
      exact ⟨[], by simp [Exit.state], floor_checked_nil H _⟩

theorem floor_checked_attempt_loop (H : Hooks σ) (p : AllParameters) :
    ∀ (fuel : ℕ) (s : Run σ), ∃ new : List (Event σ),
      (attempt_loop H p fuel s).state.log = s.log ++ new ∧
      FloorChecked H new (attempt_loop H p fuel s).isNormal := by
  intro fuel
  induction fuel with
  | zero =>
    intro s
    exact ⟨[], by simp [attempt_loop, Exit.state], floor_checked_nil H _⟩
  | succ n ih =>
    intro s
    rcases hc : call_staggered_scheme H { s with sys := H.record_old_solution s.ctl s.sys }
      with ⟨s1, _ | r⟩
    · obtain ⟨hctl, hlog, _, _, _⟩ := call_staggered_scheme_eq H _ _ _ hc
      have hlog1 : s1.log = s.log ++
          [.attempt s.ctl (H.record_old_solution s.ctl s.sys)] := hlog
      rw [attempt_loop_raise H p n s s1 hc]
      obtain ⟨new, hl, hfc⟩ := ih (on_no_convergence H s1)
      refine ⟨.attempt s.ctl (H.record_old_solution s.ctl s.sys) :: .solverDidNotConverge ::
        .noConvergenceShrink s1.ctl.current_timestep (s1.ctl.current_timestep / 10) :: new,
        ?_, ?_⟩
      · rw [hl, on_no_convergence_log, hlog1]
        simp
      · exact floor_checked_cons H _ _ _ (fun _ _ => by simp)
          (floor_checked_cons H _ _ _ (fun _ _ => by simp)
            (floor_checked_cons H _ _ _ (fun _ _ => by simp) hfc))
    · obtain ⟨hctl, hlog, _, _, _⟩ := call_staggered_scheme_eq H _ _ _ hc
      have hlog1 : s1.log = s.log ++
          [.attempt s.ctl (H.record_old_solution s.ctl s.sys)] := hlog
      obtain ⟨mid, hml, hmfc⟩ := floor_checked_residual_loop H p n
        { s1 with newton_reduction := r }
      have hml1 : (residual_loop H p n { s1 with newton_reduction := r }).state.log =
          s1.log ++ mid := hml
      rw [attempt_loop_return H p n s s1 r hc]
      rcases hr : residual_loop H p n { s1 with newton_reduction := r } with s2 | s2 | s2 | s2
      · rw [hr] at hml1 hmfc
        refine ⟨.attempt s.ctl (H.record_old_solution s.ctl s.sys) :: mid, ?_, ?_⟩
        · show s2.log = _
          have : s2.log = s1.log ++ mid := hml1
          rw [this, hlog1]
          simp
        · exact floor_checked_cons H _ _ _ (fun _ _ => by simp) hmfc
      · rw [hr] at hml1 hmfc
        have hs2 : s2.log = s1.log ++ mid := hml1
        obtain ⟨new, hl, hfc⟩ := ih (on_no_convergence H s2)
        refine ⟨.attempt s.ctl (H.record_old_solution s.ctl s.sys) :: (mid ++
          .solverDidNotConverge ::
          .noConvergenceShrink s2.ctl.current_timestep (s2.ctl.current_timestep / 10) ::
          new), ?_, ?_⟩
        · show (attempt_loop H p n (on_no_convergence H s2)).state.log = _
          rw [hl, on_no_convergence_log, hs2, hlog1]
          simp
        · apply floor_checked_cons H _ _ _ (fun _ _ => by simp)
          apply floor_checked_append H _ _ _ _ (fun _ _ => by simp) (fun _ _ => by simp) hmfc
          exact floor_checked_cons H _ _ _ (fun _ _ => by simp) hfc
      · rw [hr] at hml1 hmfc
        refine ⟨.attempt s.ctl (H.record_old_solution s.ctl s.sys) :: mid, ?_, ?_⟩
        · show s2.log = _
          have : s2.log = s1.log ++ mid := hml1
          rw [this, hlog1]
          simp
        · exact floor_checked_cons H _ _ _ (fun _ _ => by simp) hmfc
      · rw [hr] at hml1 hmfc
        refine ⟨.attempt s.ctl (H.record_old_solution s.ctl s.sys) :: mid, ?_, ?_⟩
        · show s2.log = _
          have : s2.log = s1.log ++ mid := hml1
          rw [this, hlog1]
          simp
        · exact floor_checked_cons H _ _ _ (fun _ _ => by simp) hmfc

/-- Claim C2, amended: for every behaviour of the hooks, once a residual-driven shrink has
taken `current_timestep` below `1.0e-9` and the re-run that follows it returns, the warning
is printed and the attempt loop is left: nothing but the warning is logged after that
re-run, so no further shrink occurs, and the step is accepted. -/
theorem floor_check_accepts (H : Hooks σ) (p : AllParameters) (fuel : ℕ) (s : Run σ)
    (pre post : List (Event σ)) (b a : ℚ) (c : Controller) (x : σ)
    (hev : events_since s (attempt_loop H p fuel s).state =
      pre ++ Event.residualShrink b a :: Event.attempt c x :: post)
    (ha : a < step_floor) (hret : (H.staggered_scheme c x).2 ≠ none) :
    post = [Event.stepTooSmall] ∧ shrinks post = 0 ∧
      (attempt_loop H p fuel s).isNormal = true := by
  obtain ⟨new, hl, hfc⟩ := floor_checked_attempt_loop H p fuel s
  rw [events_since_append s _ new hl] at hev
  obtain ⟨h1, h2⟩ := hfc pre b a c x post hev ha hret
  refine ⟨h1, ?_, h2⟩
  rw [h1]
  rfl

/-- When every attempt throws, the attempt loop is not left, whatever the bound. -/
theorem always_raising_never_accepts (p : AllParameters) :
    ∀ (fuel : ℕ) (s : Run ℕ),
      (attempt_loop (scripted (fun _ => none)) p fuel s).isNormal = false := by
  intro fuel
  induction fuel with
  | zero =>
    intro s
    rfl
  | succ n ih =>
    intro s
    rcases hc : call_staggered_scheme (scripted (fun _ => none))
        { s with sys := (scripted (fun _ => none)).record_old_solution s.ctl s.sys }
      with ⟨s1, _ | r⟩
    · rw [attempt_loop_raise _ p n s s1 hc]
      exact ih _
    · have := (call_staggered_scheme_eq _ _ _ _ hc).2.2.2.1
      simp [scripted] at this

open PhaseFieldFracture

/-! ## The scenarios of the specification, evaluated -/

/-- Claim C1, the code at the failing input: step `1e-7`, threshold `1`, first attempt returns `2`,
every re-run returns `1/2`. The first re-run runs with step `1e-8 >= 1e-9` and returns a
value below the threshold, yet the loop shrinks three times and accepts with step `1e-10`
and the warning, because the value returned by the re-run of line 122 is not stored. -/
theorem rerun_reduction_not_stored :
    (1 / 10 ^ 7 : ℚ) / 10 ^ 1 ≥ step_floor ∧
    (attempt_loop (scripted (fun n => if n = 0 then some 2 else some (1 / 2)))
      (sample_parameters false) 10 (loop_head (1 / 10 ^ 7))).isNormal = true ∧
    (attempt_loop (scripted (fun n => if n = 0 then some 2 else some (1 / 2)))
      (sample_parameters false) 10 (loop_head (1 / 10 ^ 7))).state.ctl.current_timestep
        = 1 / 10 ^ 10 ∧
    shrink_steps (events_since (loop_head (1 / 10 ^ 7))
      (attempt_loop (scripted (fun n => if n = 0 then some 2 else some (1 / 2)))
        (sample_parameters false) 10 (loop_head (1 / 10 ^ 7))).state)
        = [(1 / 10 ^ 7, 1 / 10 ^ 8), (1 / 10 ^ 8, 1 / 10 ^ 9), (1 / 10 ^ 9, 1 / 10 ^ 10)] ∧
    Event.stepTooSmall ∈ events_since (loop_head (1 / 10 ^ 7))
      (attempt_loop (scripted (fun n => if n = 0 then some 2 else some (1 / 2)))
        (sample_parameters false) 10 (loop_head (1 / 10 ^ 7))).state := by
  decide!

/-- Claim C2 as stated is refuted: step `1e-9`, the first two attempts throw, the third returns
`0`. The first catch takes the step to `1e-10`, below the floor; the second attempt throws
and the step is shrunk again, from `1e-10` to `1e-11`. When every attempt throws, the
attempt loop is not left with any iteration bound. -/
theorem floor_not_checked_after_no_convergence :
    shrink_steps (events_since (loop_head (1 / 10 ^ 9))
      (attempt_loop (scripted (fun n => if n < 2 then none else some 0))
        (sample_parameters false) 3 (loop_head (1 / 10 ^ 9))).state)
        = [(1 / 10 ^ 9, 1 / 10 ^ 10), (1 / 10 ^ 10, 1 / 10 ^ 11)] ∧
    (1 / 10 ^ 10 : ℚ) < step_floor ∧
    (∀ fuel : ℕ, (attempt_loop (scripted (fun _ => none)) (sample_parameters false) fuel
      (loop_head (1 / 10 ^ 9))).isNormal = false) :=
  ⟨by decide!, by decide!, fun fuel => always_raising_never_accepts _ fuel _⟩

/-- Witness of `floor_check_accepts`: one `NoConvergence`, then a high reduction at step
`1e-9`; the residual shrink to `1e-10` is followed by a re-run that returns. -/
theorem floor_check_accepts_witness :
    events_since (loop_head (1 / 10 ^ 8))
      (attempt_loop (scripted (fun n => if n = 0 then none else if n = 1 then some 2 else some 0))
        (sample_parameters false) 3 (loop_head (1 / 10 ^ 8))).state =
      [.attempt ⟨1 / 10 ^ 8, 1 / 10 ^ 8, 1 / 10 ^ 8, 1⟩ 0, .solverDidNotConverge,
        .noConvergenceShrink (1 / 10 ^ 8) (1 / 10 ^ 9),
        .attempt ⟨1 / 10 ^ 9, 1 / 10 ^ 9, 1 / 10 ^ 8, 1⟩ 1] ++
      Event.residualShrink (1 / 10 ^ 9) (1 / 10 ^ 10) ::
        Event.attempt ⟨1 / 10 ^ 10, 1 / 10 ^ 10, 1 / 10 ^ 8, 1⟩ 2 :: [.stepTooSmall] ∧
    (1 / 10 ^ 10 : ℚ) < step_floor ∧
    (attempt_loop (scripted (fun n => if n = 0 then none else if n = 1 then some 2 else some 0))
      (sample_parameters false) 3 (loop_head (1 / 10 ^ 8))).isNormal = true :=
  ⟨by decide!, by decide!,
    (floor_check_accepts
      (scripted (fun n => if n = 0 then none else if n = 1 then some 2 else some 0))
      (sample_parameters false) 3 (loop_head (1 / 10 ^ 8))
      [.attempt ⟨1 / 10 ^ 8, 1 / 10 ^ 8, 1 / 10 ^ 8, 1⟩ 0, .solverDidNotConverge,
        .noConvergenceShrink (1 / 10 ^ 8) (1 / 10 ^ 9),
        .attempt ⟨1 / 10 ^ 9, 1 / 10 ^ 9, 1 / 10 ^ 8, 1⟩ 1]
      [.stepTooSmall]
      (1 / 10 ^ 9) (1 / 10 ^ 10) ⟨1 / 10 ^ 10, 1 / 10 ^ 10, 1 / 10 ^ 8, 1⟩ 2
      (by decide!) (by decide!) (by decide)).2.2⟩

/-- Witness of `timestep_time_bookkeeping`: step `1e-8`, one shrink of each kind; the step
is accepted at time `1e-8 / 10 ^ 2`. -/
theorem timestep_time_bookkeeping_witness :
    (0 : ℚ) < (begin_timestep (sample_parameters false) (start 1 (1 / 10 ^ 8))).2 ∧
    (start 1 (1 / 10 ^ 8)).ctl.time <
      (timestep (scripted (fun n => if n = 0 then none else if n = 1 then some 2 else some 0))
        (sample_parameters false) 3 (start 1 (1 / 10 ^ 8))).state.ctl.time ∧
    (timestep (scripted (fun n => if n = 0 then none else if n = 1 then some 2 else some 0))
        (sample_parameters false) 3 (start 1 (1 / 10 ^ 8))).state.ctl.time = 1 / 10 ^ 10 ∧
    shrinks (events_since (start 1 (1 / 10 ^ 8))
      (timestep (scripted (fun n => if n = 0 then none else if n = 1 then some 2 else some 0))
        (sample_parameters false) 3 (start 1 (1 / 10 ^ 8))).state) = 2 :=
  ⟨by decide!,
    (timestep_time_bookkeeping
      (scripted (fun n => if n = 0 then none else if n = 1 then some 2 else some 0))
      (sample_parameters false) 3 (start 1 (1 / 10 ^ 8))).2.2.2 (by decide!),
    by decide!, by decide!⟩

/-- Witness of `attempts_start_from_accepted_state`: the first `update` throws; the retry
starts from the accepted solutions `0`, with snapshots `0`. -/
theorem attempts_start_from_accepted_state_witness :
    Event.attempt ⟨1 / 100, 1 / 100, 1 / 10, 1⟩
        { elasticity := ⟨0, 0⟩, phasefield := ⟨0, 0⟩, cells := [], updates := 1,
          calls := [.record_old_solution .elasticity, .record_old_solution .phasefield,
            .update .phasefield, .return_old_solution .elasticity,
            .return_old_solution .phasefield, .record_old_solution .elasticity,
            .record_old_solution .phasefield] } ∈
      events_since first_timestep
        (timestep (hooks failing_once (sample_parameters true)) (sample_parameters true) 3
          first_timestep).state ∧
    (solutions_are (sample_parameters true) first_timestep.sys.elasticity.solution
        first_timestep.sys.phasefield.solution
        { elasticity := ⟨0, 0⟩, phasefield := ⟨0, 0⟩, cells := [], updates := 1,
          calls := [.record_old_solution .elasticity, .record_old_solution .phasefield,
            .update .phasefield, .return_old_solution .elasticity,
            .return_old_solution .phasefield, .record_old_solution .elasticity,
            .record_old_solution .phasefield] } ∧
      snapshots_are (sample_parameters true) first_timestep.sys.elasticity.solution
        first_timestep.sys.phasefield.solution
        { elasticity := ⟨0, 0⟩, phasefield := ⟨0, 0⟩, cells := [], updates := 1,
          calls := [.record_old_solution .elasticity, .record_old_solution .phasefield,
            .update .phasefield, .return_old_solution .elasticity,
            .return_old_solution .phasefield, .record_old_solution .elasticity,
            .record_old_solution .phasefield] }) :=
  ⟨by decide!,
    (attempts_start_from_accepted_state failing_once (sample_parameters true) 3
      first_timestep).1 ⟨1 / 100, 1 / 100, 1 / 10, 1⟩
        { elasticity := ⟨0, 0⟩, phasefield := ⟨0, 0⟩, cells := [], updates := 1,
          calls := [.record_old_solution .elasticity, .record_old_solution .phasefield,
            .update .phasefield, .return_old_solution .elasticity,
            .return_old_solution .phasefield, .record_old_solution .elasticity,
            .record_old_solution .phasefield] } (by decide!)⟩

/-- Witness of `current_timestep_restored` (scenario B): one `NoConvergence` in step 1 with
timestep `1/10`; the retry runs with `1/100`, the output of step 1 and the header of step 2
carry `1/10`. -/
theorem current_timestep_restored_witness :
    Event.noConvergenceShrink (1 / 10) (1 / 100) ∈ events_since (start 1 (1 / 10))
      (run (scripted (fun n => if n = 0 then none else some 0)) (sample_parameters false) true
        3 3 (start 1 (1 / 10))).state ∧
    Event.attempt ⟨1 / 100, 1 / 100, 1 / 10, 1⟩ 1 ∈ events_since (start 1 (1 / 10))
      (run (scripted (fun n => if n = 0 then none else some 0)) (sample_parameters false) true
        3 3 (start 1 (1 / 10))).state ∧
    Event.output ⟨1 / 100, 1 / 10, 1 / 10, 1⟩ ∈ events_since (start 1 (1 / 10))
      (run (scripted (fun n => if n = 0 then none else some 0)) (sample_parameters false) true
        3 3 (start 1 (1 / 10))).state ∧
    Event.header 2 (1 / 100) (1 / 10) ∈ events_since (start 1 (1 / 10))
      (run (scripted (fun n => if n = 0 then none else some 0)) (sample_parameters false) true
        3 3 (start 1 (1 / 10))).state ∧
    (⟨1 / 100, 1 / 10, 1 / 10, 1⟩ : Controller).current_timestep =
      step_in_force (sample_parameters false) 1 ∧
    (1 / 10 : ℚ) = step_in_force (sample_parameters false) 2 :=
  ⟨by decide!, by decide!, by decide!, by decide!,
    (current_timestep_restored (scripted (fun n => if n = 0 then none else some 0))
      (sample_parameters false) true 3 3 (start 1 (1 / 10))).2.2.1
        ⟨1 / 100, 1 / 10, 1 / 10, 1⟩ (by decide!),
    (current_timestep_restored (scripted (fun n => if n = 0 then none else some 0))
      (sample_parameters false) true 3 3 (start 1 (1 / 10))).2.1 2 (1 / 100) (1 / 10)
        (by decide!)⟩

/-- Witness of `residual_retry_terminates` (scenario C): constant reduction `2`, threshold
`1`, step `1/10`: nine shrinks, accepted with the warning at step `1e-10`. -/
theorem residual_retry_terminates_witness :
    (0 : ℚ) < (loop_head (1 / 10)).ctl.current_timestep ∧
    (∃ fuel s', attempt_loop (scripted (fun _ => some 2)) (sample_parameters false) fuel
        (loop_head (1 / 10)) = .normal s' ∧
      0 < s'.ctl.current_timestep ∧
      ((s'.ctl.current_timestep ≤ step_floor ∧
          Event.stepTooSmall ∈ events_since (loop_head (1 / 10)) s') ∨
        s'.newton_reduction ≤ (sample_parameters false).upper_newton_rho)) ∧
    (attempt_loop (scripted (fun _ => some 2)) (sample_parameters false) 10
      (loop_head (1 / 10))).isNormal = true ∧
    (attempt_loop (scripted (fun _ => some 2)) (sample_parameters false) 10
      (loop_head (1 / 10))).state.ctl.current_timestep = 1 / 10 ^ 10 ∧
    shrinks (events_since (loop_head (1 / 10))
      (attempt_loop (scripted (fun _ => some 2)) (sample_parameters false) 10
        (loop_head (1 / 10))).state) = 9 :=
  ⟨by decide!,
    residual_retry_terminates (scripted (fun _ => some 2)) (sample_parameters false)
      (loop_head (1 / 10)) (by decide!) (fun _ _ => by simp [scripted]),
    by decide!, by decide!, by decide!⟩

/-- Witness of `converging_run` (scenario A): timestep `1/10`, `max_no_timesteps = 3`,
started at time `0` with timestep number `1`. -/
theorem converging_run_witness :
    (run (scripted (fun _ => some 0)) (sample_parameters false) true 1 3
      (start 1 (1 / 10))).state.ctl.timestep_number = 4 ∧
    (run (scripted (fun _ => some 0)) (sample_parameters false) true 1 3
      (start 1 (1 / 10))).state.ctl.time = 3 / 10 ∧
    ∃ s', run (scripted (fun _ => some 0)) (sample_parameters false) true 1 3
        (start 1 (1 / 10)) = .normal s' ∧
      (headers (events_since (start 1 (1 / 10)) s') : ℤ) =
        max 1 (((sample_parameters false).max_no_timesteps : ℤ) -
          (start 1 (1 / 10)).ctl.timestep_number + 1) ∧
      shrinks (events_since (start 1 (1 / 10)) s') = 0 ∧
      s'.ctl.timestep_number =
        max (start 1 (1 / 10)).ctl.timestep_number (sample_parameters false).max_no_timesteps
          + 1 ∧
      s'.ctl.time = (start 1 (1 / 10)).ctl.time +
        headers (events_since (start 1 (1 / 10)) s') * (sample_parameters false).timestep ∧
      (sample_parameters false).max_no_timesteps < s'.ctl.timestep_number ∧
      (∀ n t ts, Event.header n t ts ∈ events_since (start 1 (1 / 10)) s' →
        n = (start 1 (1 / 10)).ctl.timestep_number ∨
          n ≤ (sample_parameters false).max_no_timesteps) :=
  ⟨by decide!, by decide!,
    converging_run (scripted (fun _ => some 0)) (sample_parameters false) 1 3
      (start 1 (1 / 10)) rfl (fun _ _ => ⟨0, rfl, by decide⟩) (by decide) (by decide)⟩

namespace PhaseFieldFracture

/-- Witness of `staggered_scheme_single_pass`: reductions `3` (first update) and `2`. -/
theorem staggered_scheme_single_pass_witness :
    (staggered_scheme decreasing_reductions (sample_parameters true) marking_rank).2 =
        some (max 2 3) ∧
    (staggered_scheme decreasing_reductions (sample_parameters true) marking_rank).1.calls =
        marking_rank.calls ++
          [.update .phasefield, .finalize_point_history, .enforce_phase_field_limitation,
           .update .elasticity, .finalize_point_history] ∧
    (staggered_scheme decreasing_reductions (sample_parameters false) marking_rank).2 =
        some 3 ∧
    (staggered_scheme decreasing_reductions (sample_parameters false) marking_rank).1.calls =
        marking_rank.calls ++ [.update .elasticity, .finalize_point_history] :=
  ⟨((staggered_scheme_single_pass decreasing_reductions (sample_parameters true)
      marking_rank).1 rfl 3 2 (by decide!) (by decide!)).1,
    ((staggered_scheme_single_pass decreasing_reductions (sample_parameters true)
      marking_rank).1 rfl 3 2 (by decide!) (by decide!)).2.1,
    ((staggered_scheme_single_pass decreasing_reductions (sample_parameters false)
      marking_rank).2 rfl 3 (by decide!)).1,
    ((staggered_scheme_single_pass decreasing_reductions (sample_parameters false)
      marking_rank).2 rfl 3 (by decide!)).2.1⟩

end PhaseFieldFracture
end Multiphysics

